import Mathlib

/-!
Shallow embedding of the agromind-backend farm routes
(src/routes/farms.base.js, farms.finance.js, farms.tasks.js,
farms.zonesReport.js) and of the delete-cascade semantics declared by the
prisma migrations, together with proofs about the claims of the
specification.

Modelling conventions:
* JS numbers are modelled as rationals (ℚ); binary floating point rounding
  is outside the model and no claim depends on it.
* JS strings are modelled as Lean strings; `slice`/`includes`/`trim`
  correspond to `take`/substring search/`trim` (UTF-16 vs codepoint
  differences are outside the model).
* UTC instants are modelled as calendar records (year, month, day,
  millisecond of day); `getTime()` is `toMillis`, computed with the
  standard civil-calendar day-count algorithm.
* The mutable relational store is a record of lists of rows; each request
  handler is a pure function from the store (plus the authenticated user,
  route parameters, request body and current time) to a status, a response
  and the new store.
-/

/-- JS `String.prototype.trim`, written structurally so that it evaluates
by kernel reduction (leading and trailing whitespace removed). -/
def String.jsTrim (s : String) : String :=
  String.mk (((s.data.dropWhile Char.isWhitespace).reverse.dropWhile
    Char.isWhitespace).reverse)

namespace AgroMind

/-- JSON-ish values as they appear in request bodies.  `undef` stands for
the JavaScript `undefined` produced by reading an absent object field. -/
inductive Json where
  | undef : Json
  | null : Json
  | bool (b : Bool) : Json
  | num (q : ℚ) : Json
  | str (s : String) : Json
  | arr (elems : List Json) : Json
  | obj (fields : List (String × Json)) : Json

/-- Field access `body?.k`: `undefined` when absent or when the value is
not an object. -/
def Json.getField : Json → String → Json
  | .obj fields, k =>
    match fields.find? (fun p => p.1 == k) with
    | some p => p.2
    | none => .undef
  | _, _ => (.undef)

/-- JavaScript truthiness of a JSON value. -/
def Json.truthy : Json → Bool
  | .undef => false
  | .null => false
  | .bool b => b
  | .num q => q != 0
  | .str s => s != ""
  | .arr _ => true
  | .obj _ => true

/-- Whether a value is the JS `undefined` (`x !== undefined` checks). -/
def Json.isUndef : Json → Bool
  | .undef => true
  | _ => false

/-- String content of a JSON value (only used after a string check). -/
def Json.asString : Json → String
  | .str s => s
  | _ => ""

/-- `a ?? b` (JS nullish coalescing). -/
def jsNullish (a b : Json) : Json :=
  match a with
  | .undef => b
  | .null => b
  | _ => a

/-- Whether the character list `sub` starts the list `s`. -/
def listStartsWith : List Char → List Char → Bool
  | _, [] => true
  | [], _ :: _ => false
  | a :: as, b :: bs => a == b && listStartsWith as bs

/-- Whether the character list `sub` occurs inside the list `s`. -/
def listIncludes : List Char → List Char → Bool
  | [], sub => listStartsWith [] sub
  | s@(_ :: rest), sub => listStartsWith s sub || listIncludes rest sub

/-- JS `String.prototype.replaceAll(",", "")`. -/
def stripCommas (s : String) : String :=
  String.mk (s.data.filter (fun c => !(c == ',')))

/-- farms.base.js `isNonEmptyString(v)`. -/
def isNonEmptyString : Json → Bool
  | .str s => s.jsTrim != ""
  | _ => false

/-- `isNonEmptyString` applied to a value statically known to be a string
(the stored columns, which are `TEXT` in the schema). -/
def isNonEmptyStr (s : String) : Bool := s.jsTrim != ""

/-- farms.base.js `cleanName(v, fallback)`. -/
def cleanName (v : Json) (fallback : String) : String :=
  let s := if isNonEmptyString v then v.asString.jsTrim else ""
  if s != "" then s.take 80 else fallback

/-- farms.base.js `looksLikeId(v)`; route parameters are always strings. -/
def looksLikeId (v : String) : Bool := isNonEmptyStr v && v.jsTrim.length ≥ 8

/-- farms.base.js `safeClientId(v)`. -/
def safeClientId (v : Json) : Option String :=
  if !isNonEmptyString v then none
  else
    let s := v.asString.jsTrim
    if s.length < 8 then none
    else if s.length > 64 then none
    else some s

/-- JS `toLowerCase` on the character range this code base uses (ASCII and
the Spanish accented letters appearing in the keyword dictionaries). -/
def jsToLowerChar (c : Char) : Char :=
  match c with
  | 'Á' => 'á'
  | 'É' => 'é'
  | 'Í' => 'í'
  | 'Ó' => 'ó'
  | 'Ú' => 'ú'
  | 'Ü' => 'ü'
  | 'Ñ' => 'ñ'
  | _ => c.toLower

/-- NFD decomposition followed by removal of the combining marks
U+0300–U+036F, on the letters this code base uses: an accented Latin
letter becomes its base letter and a bare combining mark disappears. -/
def nfdStrip (c : Char) : Option Char :=
  if 0x300 ≤ c.toNat && c.toNat ≤ 0x36F then none
  else some (match c with
    | 'á' => 'a'
    | 'é' => 'e'
    | 'í' => 'i'
    | 'ó' => 'o'
    | 'ú' => 'u'
    | 'ü' => 'u'
    | 'ñ' => 'n'
    | _ => c)

/-- farms.base.js `normalizeText(s)`: lower-case, strip accents, trim. -/
def normalizeText (s : String) : String :=
  (String.mk ((s.data.map jsToLowerChar).filterMap nfdStrip)).jsTrim

/-- JS `haystack.includes(needle)`. -/
def strIncludes (s sub : String) : Bool :=
  listIncludes s.data sub.data

/-- The keyword dictionary of farms.base.js `keywordCategory`. -/
def keywordDict : List (List String × String) :=
  [ (["urea", "fertiliz", "abono"], "Fertilizantes"),
    (["concentrado", "alimento", "balanceado"], "Alimentación"),
    (["diesel", "diésel", "gasolina", "combustible"], "Transporte"),
    (["vacuna", "desparas", "vitamina"], "Sanidad"),
    (["manguera", "riego", "aspersor", "bomba"], "Riego"),
    (["repuesto", "mantenimiento", "taller"], "Mantenimiento") ]

/-- farms.base.js `keywordCategory(concept, category)` (string inputs, as
at every call site). -/
def keywordCategory (concept category : String) : String :=
  let cat := if isNonEmptyStr category then category.jsTrim else "General"
  let hay := normalizeText (concept ++ " " ++ cat)
  if cat != "" && cat != "General" then cat
  else
    match keywordDict.find? (fun row =>
        row.1.any (fun k => strIncludes hay (normalizeText k))) with
    | some row => row.2
    | none => if cat != "" then cat else "General"

/-! ## UTC calendar -/

def MS_DAY : Int := 86400000

def NOON_MS : Int := 43200000

/-- Days since 1970-01-01 of the civil date y-m-d (standard algorithm). -/
def daysFromCivil (y m d : Int) : Int :=
  let y2 := if m ≤ 2 then y - 1 else y
  let era := y2.ediv 400
  let yoe := y2 - era * 400
  let mp := m + (if m > 2 then -3 else 9)
  let doy := (153 * mp + 2).ediv 5 + d - 1
  let doe := yoe * 365 + yoe.ediv 4 - yoe.ediv 100 + doy
  era * 146097 + doe - 719468

/-- Civil date from days since 1970-01-01 (inverse of `daysFromCivil`). -/
def civilFromDays (z0 : Int) : Int × Int × Int :=
  let z := z0 + 719468
  let era := z.ediv 146097
  let doe := z - era * 146097
  let yoe := (doe - doe.ediv 1460 + doe.ediv 36524 - doe.ediv 146096).ediv 365
  let y := yoe + era * 400
  let doy := doe - (365 * yoe + yoe.ediv 4 - yoe.ediv 100)
  let mp := (5 * doy + 2).ediv 153
  let d := doy - (153 * mp + 2).ediv 5 + 1
  let m := mp + (if mp < 10 then 3 else -9)
  (if m ≤ 2 then y + 1 else y, m, d)

/-- A UTC instant, kept in calendar form (month is 1-based). -/
structure DateTime where
  year : Int
  month : Int
  day : Int
  msOfDay : Int
  deriving Repr, DecidableEq

/-- JS `Date#getTime()` in milliseconds since the epoch. -/
def DateTime.toMillis (t : DateTime) : Int :=
  daysFromCivil t.year t.month t.day * MS_DAY + t.msOfDay

/-- The instant a given number of epoch milliseconds denotes. -/
def dateFromMillis (ms : Int) : DateTime :=
  let days := ms.ediv MS_DAY
  let c := civilFromDays days
  ⟨c.1, c.2.1, c.2.2, ms.emod MS_DAY⟩

/-- `new Date(Date.UTC(y, moIdx, d, ...))` with `moIdx` 0-based, including
the JS normalization of out-of-range months and days. -/
def mkUtcDateTime (y moIdx d ms : Int) : DateTime :=
  let total := y * 12 + moIdx
  let y2 := total.ediv 12
  let m2 := total.emod 12 + 1
  dateFromMillis (daysFromCivil y2 m2 1 * MS_DAY + (d - 1) * MS_DAY + ms)

def digitsToNat (cs : List Char) : Nat :=
  cs.foldl (fun a c => a * 10 + (c.toNat - Char.toNat '0')) 0

/-- farms.base.js `parseISODateOnlyToUTC(dateStr)`: strict `YYYY-MM-DD`,
stored at noon UTC.  (`Date.UTC` of a 4-digit year is never `NaN`, so the
`NaN` branch of the source is vacuous here.) -/
def parseISODateOnlyToUTC (v : Json) : Option DateTime :=
  if !isNonEmptyString v then none
  else
    match (v.asString.jsTrim).data with
    | [y1, y2, y3, y4, h1, m1, m2, h2, d1, d2] =>
      if [y1, y2, y3, y4, m1, m2, d1, d2].all Char.isDigit
          && h1 == '-' && h2 == '-' then
        some (mkUtcDateTime (digitsToNat [y1, y2, y3, y4])
          ((digitsToNat [m1, m2] : Int) - 1) (digitsToNat [d1, d2]) NOON_MS)
      else none
    | _ => none

def takeDigits : List Char → (List Char × List Char)
  | [] => ([], [])
  | c :: rest =>
    if c.isDigit then
      let p := takeDigits rest
      (c :: p.1, p.2)
    else ([], c :: rest)

/-- JS `Number(string)` on the decimal fragment: optional sign, digits
with an optional fraction, optional exponent; the empty (trimmed) string
is 0.  Hex literals and `Infinity` are conflated with `NaN` (`none`); both
callers reject non-finite results, so no claim can observe the
difference. -/
def parseJsNumber (s0 : String) : Option ℚ :=
  let s := s0.jsTrim
  if s == "" then some 0
  else
    let p1 : ℚ × List Char :=
      match s.data with
      | '-' :: r => (-1, r)
      | '+' :: r => (1, r)
      | r => (1, r)
    let sign := p1.1
    let ipr := takeDigits p1.2
    let fpr : List Char × List Char :=
      match ipr.2 with
      | '.' :: r => takeDigits r
      | _ => ([], ipr.2)
    if ipr.1.isEmpty && fpr.1.isEmpty then none
    else
      let mant : ℚ :=
        (digitsToNat ipr.1 : ℚ) + (digitsToNat fpr.1 : ℚ) / (10 : ℚ) ^ fpr.1.length
      match fpr.2 with
      | [] => some (sign * mant)
      | e :: r3 =>
        if e == 'e' || e == 'E' then
          let p2 : Int × List Char :=
            match r3 with
            | '-' :: r => (-1, r)
            | '+' :: r => (1, r)
            | r => (1, r)
          let edr := takeDigits p2.2
          if edr.1.isEmpty || !edr.2.isEmpty then none
          else some (sign * mant * (10 : ℚ) ^ (p2.1 * (digitsToNat edr.1 : Int)))
        else none

/-- farms.base.js `parseAmount(v)`. -/
def parseAmount (v : Json) : Option ℚ :=
  let n : Option ℚ :=
    match v with
    | .num q => some q
    | .str s => parseJsNumber (stripCommas s).jsTrim
    | _ => none
  match n with
  | none => none
  | some q => if q < 0 then none else some q

/-- farms.base.js `normalizeType(v)`. -/
def normalizeType (v : Json) : Option String :=
  match v with
  | .str s =>
    let t := s.jsTrim
    if t == "Ingreso" then some "Ingreso"
    else if t == "Gasto" then some "Gasto"
    else none
  | _ => none

/-- Truncation toward zero of a rational, as JS `ToInteger`. -/
def ratTrunc (q : ℚ) : Int := q.num.tdiv (q.den : Int)

/-- farms.base.js `parseDateAnyToUTC(value)`.  The `new Date(s)` fallback
for strings that are not `YYYY-MM-DD` is modelled as invalid (no claim
exercises generic JS date-string parsing), as is the object/array
coercion. -/
def parseDateAnyToUTC (v : Json) : Option DateTime :=
  if !v.truthy then none
  else
    match v with
    | .str s => parseISODateOnlyToUTC (.str s)
    | .num q =>
      let ms := ratTrunc q
      if -8640000000000000 ≤ ms ∧ ms ≤ 8640000000000000 then
        some (dateFromMillis ms)
      else none
    | .bool b => some (dateFromMillis (if b then 1 else 0))
    | _ => none

/-- Zero-padding as `String#padStart(w, "0")` / `toISOString` produce for
the nonnegative fields we render. -/
def padNum (width : Nat) (n : Int) : String :=
  let s := toString n
  if s.length < width then String.mk (List.replicate (width - s.length) '0') ++ s
  else s

/-- farms.base.js `toYYYYMMDD(value)` on a valid date
(`toISOString().slice(0, 10)`). -/
def toYYYYMMDD (t : DateTime) : String :=
  padNum 4 t.year ++ "-" ++ padNum 2 t.month ++ "-" ++ padNum 2 t.day

/-- farms.base.js `monthKeyUTC(date)` on a valid date. -/
def monthKeyUTC (t : DateTime) : String :=
  toString t.year ++ "-" ++ padNum 2 t.month

/-- farms.base.js `startOfMonthUTC(date)`. -/
def startOfMonthUTC (t : DateTime) : DateTime :=
  mkUtcDateTime t.year (t.month - 1) 1 0

/-- farms.base.js `startOfNextMonthUTC(date)`. -/
def startOfNextMonthUTC (t : DateTime) : DateTime :=
  mkUtcDateTime t.year t.month 1 0

/-- farms.base.js `prevMonthKey(monthYYYYMM)`. -/
def prevMonthKey (s : String) : String :=
  match s.data with
  | [y1, y2, y3, y4, h, m1, m2] =>
    if [y1, y2, y3, y4, m1, m2].all Char.isDigit && h == '-' then
      let dt := mkUtcDateTime (digitsToNat [y1, y2, y3, y4])
        ((digitsToNat [m1, m2] : Int) - 1) 15 NOON_MS
      monthKeyUTC (mkUtcDateTime dt.year (dt.month - 2) dt.day dt.msOfDay)
    else ""
  | _ => ""

/-- `Math.ceil(a / b)` for exact integer inputs and positive `b` (the day
differences in farms.tasks.js; float rounding cannot change the result in
the representable date range). -/
def jsCeilDiv (a b : Int) : Int := -((-a).ediv b)

/-- `Math.floor(a / b)` likewise. -/
def jsFloorDiv (a b : Int) : Int := a.ediv b

/-- JS `Number(v)` on the value shapes a JSON body can carry.  Array and
object coercion (via `toString`) is modelled as `NaN`; no claim depends
on it. -/
def jsNumber : Json → Option ℚ
  | .num q => some q
  | .str s => parseJsNumber s
  | .bool b => some (if b then 1 else 0)
  | .null => some 0
  | _ => none

/-! ## Rows and store

Row shapes follow the prisma migrations (src/unnamed and
src/prisma/migrations): `TEXT` columns are `String` (nullable ones
`Option String`), `JSONB` columns are `Json` (`.null` standing for SQL
`NULL`), `TIMESTAMP` columns are `DateTime` (bookkeeping `createdAt` /
`updatedAt` as epoch milliseconds), `DOUBLE PRECISION` is `ℚ`. -/

structure Farm where
  id : String
  userId : String
  name : String
  view : Json
  preferredCenter : Json
  createdAt : Int
  updatedAt : Int

structure MapPoint where
  id : String
  farmId : String
  name : Option String
  data : Json
  createdAt : Int
  updatedAt : Int

structure MapLine where
  id : String
  farmId : String
  name : Option String
  data : Json
  createdAt : Int
  updatedAt : Int

structure MapZone where
  id : String
  farmId : String
  name : Option String
  data : Json
  components : Json
  createdAt : Int
  updatedAt : Int

structure Task where
  id : String
  farmId : String
  title : String
  zone : Option String
  type : String
  priority : String
  start : DateTime
  due : DateTime
  status : String
  owner : Option String
  createdAt : Int
  updatedAt : Int
  deriving Repr, DecidableEq

structure FinanceMovement where
  id : String
  farmId : String
  date : DateTime
  concept : String
  category : String
  type : String
  amount : ℚ
  note : Option String
  invoiceNumber : Option String
  createdAt : Int
  updatedAt : Int
  deriving Repr, DecidableEq

structure Asset where
  id : String
  farmId : String
  name : String
  category : String
  purchaseValue : ℚ
  purchaseDate : DateTime
  usefulLifeYears : ℚ
  residualValue : ℚ
  createdAt : Int
  updatedAt : Int
  deriving Repr, DecidableEq

/-- The relational store.  `nextId` models the state of the server-side id
generator (prisma cuid). -/
structure DB where
  farms : List Farm
  points : List MapPoint
  lines : List MapLine
  zones : List MapZone
  tasks : List Task
  movements : List FinanceMovement
  assets : List Asset
  nextId : Nat

/-- A fresh server-generated row id (models cuid generation; always at
least 8 characters long). -/
def genId (n : Nat) : String := "srvgen00" ++ toString n

/-- The projection `select { id, name, view, preferredCenter }` used by
`assertFarmOwner`. -/
structure FarmSel where
  id : String
  name : String
  view : Json
  preferredCenter : Json

def Farm.sel (f : Farm) : FarmSel :=
  ⟨f.id, f.name, f.view, f.preferredCenter⟩

/-- farms.base.js `assertFarmOwner(farmId, userId)`. -/
def assertFarmOwner (db : DB) (farmId userId : String) : Option FarmSel :=
  (db.farms.find? (fun f => f.id == farmId && f.userId == userId)).map Farm.sel

/-! ## Responses -/

/-- The `actionPayload` objects attached to suggestions. -/
structure ActionPayload where
  title : String
  zone : String
  type : String
  priority : String
  start : String
  due : String
  status : String
  owner : String
  deriving Repr, DecidableEq

/-- A task suggestion (farms.tasks.js). -/
structure Sug where
  id : String
  code : String
  level : String
  title : String
  message : String
  zone : Option String
  actionPayload : Option ActionPayload
  deriving Repr, DecidableEq

/-- A finance suggestion (farms.finance.js insights). -/
structure FinSug where
  id : String
  code : String
  title : String
  message : String
  actionPayload : Option ActionPayload
  deriving Repr, DecidableEq

structure Anomaly where
  title : String
  message : String
  movementId : Option String
  deriving Repr, DecidableEq

structure CatTotal where
  category : String
  total : ℚ
  deriving Repr, DecidableEq

structure Audit where
  missingCategory : Nat
  tooGeneralCategory : Nat
  genericConcept : Nat
  possibleDuplicates : Nat
  invoiceMissing : Nat
  deriving Repr, DecidableEq

structure Variation where
  ingresos : ℚ
  gastos : ℚ
  balance : ℚ
  deriving Repr, DecidableEq

structure Summary where
  month : String
  ingresos : ℚ
  gastos : ℚ
  balance : ℚ
  margen : ℚ
  variationVsPrev : Variation
  deriving Repr, DecidableEq

structure Insights where
  summary : Summary
  topCategories : List CatTotal
  anomalies : List Anomaly
  healthScore : Int
  projection30 : ℚ
  projection90 : ℚ
  audit : Audit
  suggestions : List FinSug
  deriving Repr, DecidableEq

structure ZoneReportEntry where
  id : String
  name : String
  updatedAt : Int
  createdAt : Int
  components : Json
  hasAnimals : Bool
  hasCrops : Bool
  keys : List String
  activeTasksCount : Nat
  activeTasks : List Task

structure ZonesReport where
  farmId : String
  farmName : String
  zonesCount : Nat
  activeTasksCount : Nat
  report : List ZoneReportEntry

/-- Response bodies of the handlers this development models. -/
inductive Resp where
  | err (msg : String)
  | farmCreated (f : Farm)
  | mapData (farm : FarmSel) (points : List MapPoint) (lines : List MapLine)
      (zones : List MapZone)
  | mapSaved (points lines zones : Nat)
  | taskList (ts : List Task)
  | taskData (t : Task)
  | deleted
  | movementList (ms : List FinanceMovement)
  | movementData (m : FinanceMovement)
  | assetList (xs : List Asset)
  | assetData (a : Asset)
  | sugList (ss : List Sug)
  | insightsData (r : Insights)
  | zonesReportData (r : ZonesReport)

/-- Status, response body and resulting store of a handler. -/
structure HRes where
  status : Nat
  resp : Resp
  db : DB

/-! ## Base routes (farms + map) -/

/-- POST /api/farms.  The unique index `Farm_userId_name_key` of the
migrations makes `prisma.farm.create` throw `P2002` exactly when a farm
with the same `(userId, name)` already exists, which the handler maps to
409. -/
def createFarm (db : DB) (userId : String) (body : Json) (now : DateTime) : HRes :=
  let finalName := cleanName (body.getField "name") "Mi finca"
  let finalView := jsNullish (body.getField "view") .null
  let preferredCenter :=
    if finalView.truthy then
      match finalView.getField "center" with
      | .arr xs => Json.arr xs
      | _ => .null
    else .null
  if db.farms.any (fun f => f.userId == userId && f.name == finalName) then
    ⟨409, .err "Ya existe una finca con ese nombre.", db⟩
  else
    let farm : Farm :=
      { id := genId db.nextId, userId := userId, name := finalName,
        view := if finalView.truthy then finalView else .null,
        preferredCenter := preferredCenter,
        createdAt := now.toMillis, updatedAt := now.toMillis }
    ⟨201, .farmCreated farm,
      { db with farms := db.farms ++ [farm], nextId := db.nextId + 1 }⟩

/-- GET /api/farms/:id/map. -/
def getMap (db : DB) (userId farmId : String) : HRes :=
  if !looksLikeId farmId then ⟨400, .err "farmId inválido.", db⟩
  else
    match assertFarmOwner db farmId userId with
    | none => ⟨403, .err "Sin acceso a esa finca.", db⟩
    | some farm =>
      let points := (db.points.filter (fun p => p.farmId == farmId)).mergeSort
        (fun a b => a.createdAt ≤ b.createdAt)
      let lines := (db.lines.filter (fun l => l.farmId == farmId)).mergeSort
        (fun a b => a.createdAt ≤ b.createdAt)
      let zones := (db.zones.filter (fun z => z.farmId == farmId)).mergeSort
        (fun a b => a.createdAt ≤ b.createdAt)
      ⟨200, .mapData farm points lines zones, db⟩

/-- `Array.isArray(x) ? x : []`. -/
def jsArr : Json → List Json
  | .arr xs => xs
  | _ => []

/-- The `tx.farm.update` performed by PUT map when `view` is truthy. -/
def updateFarmView (db : DB) (farmId : String) (view : Json) (now : DateTime) : DB :=
  let preferredCenter :=
    match view.getField "center" with
    | .arr xs => Json.arr xs
    | _ => .null
  { db with farms := db.farms.map (fun f =>
      if f.id == farmId then
        { f with view := view,
                 preferredCenter :=
                   if preferredCenter.truthy then preferredCenter else f.preferredCenter,
                 updatedAt := now.toMillis }
      else f) }

/-- One iteration of the point upsert loop of PUT map
(`updateMany` by id+farmId, falling back to `create`). -/
def upsertPointStep (farmId : String) (now : DateTime) (db : DB) (p : Json) : DB :=
  let data := jsNullish (p.getField "data") p
  let name := cleanName (p.getField "name") "Punto"
  match safeClientId (p.getField "id") with
  | some i =>
    if db.points.any (fun r => r.id == i && r.farmId == farmId) then
      { db with points := db.points.map (fun r =>
          if r.id == i && r.farmId == farmId then
            { r with name := some name, data := data, updatedAt := now.toMillis }
          else r) }
    else
      { db with points := db.points ++
          [{ id := i, farmId := farmId, name := some name, data := data,
             createdAt := now.toMillis, updatedAt := now.toMillis }] }
  | none =>
    { db with
      points := db.points ++
        [{ id := genId db.nextId, farmId := farmId, name := some name, data := data,
           createdAt := now.toMillis, updatedAt := now.toMillis }],
      nextId := db.nextId + 1 }

/-- One iteration of the line upsert loop of PUT map. -/
def upsertLineStep (farmId : String) (now : DateTime) (db : DB) (l : Json) : DB :=
  let data := jsNullish (l.getField "data") l
  let name := cleanName (l.getField "name") "Línea"
  match safeClientId (l.getField "id") with
  | some i =>
    if db.lines.any (fun r => r.id == i && r.farmId == farmId) then
      { db with lines := db.lines.map (fun r =>
          if r.id == i && r.farmId == farmId then
            { r with name := some name, data := data, updatedAt := now.toMillis }
          else r) }
    else
      { db with lines := db.lines ++
          [{ id := i, farmId := farmId, name := some name, data := data,
             createdAt := now.toMillis, updatedAt := now.toMillis }] }
  | none =>
    { db with
      lines := db.lines ++
        [{ id := genId db.nextId, farmId := farmId, name := some name, data := data,
           createdAt := now.toMillis, updatedAt := now.toMillis }],
      nextId := db.nextId + 1 }

/-- One iteration of the zone upsert loop of PUT map. -/
def upsertZoneStep (farmId : String) (now : DateTime) (db : DB) (z : Json) : DB :=
  let data := jsNullish (z.getField "data") z
  let name := cleanName (z.getField "name") "Zona"
  let components := jsNullish (z.getField "components") .null
  match safeClientId (z.getField "id") with
  | some i =>
    if db.zones.any (fun r => r.id == i && r.farmId == farmId) then
      { db with zones := db.zones.map (fun r =>
          if r.id == i && r.farmId == farmId then
            { r with name := some name, data := data, components := components,
                     updatedAt := now.toMillis }
          else r) }
    else
      { db with zones := db.zones ++
          [{ id := i, farmId := farmId, name := some name, data := data,
             components := components,
             createdAt := now.toMillis, updatedAt := now.toMillis }] }
  | none =>
    { db with
      zones := db.zones ++
        [{ id := genId db.nextId, farmId := farmId, name := some name, data := data,
           components := components,
           createdAt := now.toMillis, updatedAt := now.toMillis }],
      nextId := db.nextId + 1 }

/-- PUT /api/farms/:id/map.  The source special-cases an empty id list
(`deleteMany({farmId})` instead of `notIn: []`); both delete every row of
the farm whose id is not among the incoming ids, which is what the filter
below does. -/
def putMap (db : DB) (userId farmId : String) (body : Json) (now : DateTime) : HRes :=
  if !looksLikeId farmId then ⟨400, .err "farmId inválido.", db⟩
  else
    match assertFarmOwner db farmId userId with
    | none => ⟨403, .err "Sin acceso a esa finca.", db⟩
    | some _ =>
      let view := body.getField "view"
      let safePoints := jsArr (body.getField "points")
      let safeLines := jsArr (body.getField "lines")
      let safeZones := jsArr (body.getField "zones")
      let db1 := if view.truthy then updateFarmView db farmId view now else db
      let pointIds := safePoints.filterMap (fun p => safeClientId (p.getField "id"))
      let db2 := { db1 with points := db1.points.filter (fun r =>
          !(r.farmId == farmId && !pointIds.contains r.id)) }
      let db3 := safePoints.foldl (upsertPointStep farmId now) db2
      let lineIds := safeLines.filterMap (fun l => safeClientId (l.getField "id"))
      let db4 := { db3 with lines := db3.lines.filter (fun r =>
          !(r.farmId == farmId && !lineIds.contains r.id)) }
      let db5 := safeLines.foldl (upsertLineStep farmId now) db4
      let zoneIds := safeZones.filterMap (fun z => safeClientId (z.getField "id"))
      let db6 := { db5 with zones := db5.zones.filter (fun r =>
          !(r.farmId == farmId && !zoneIds.contains r.id)) }
      let db7 := safeZones.foldl (upsertZoneStep farmId now) db6
      ⟨200, .mapSaved safePoints.length safeLines.length safeZones.length, db7⟩

/-! ## Task routes -/

/-- Ordering of GET tasks: `orderBy: [{ due: "asc" }, { createdAt: "desc" }]`. -/
def taskListOrder (a b : Task) : Bool :=
  a.due.toMillis < b.due.toMillis ||
    (a.due.toMillis == b.due.toMillis && b.createdAt ≤ a.createdAt)

/-- GET /api/farms/:id/tasks. -/
def getTasks (db : DB) (userId farmId : String) : HRes :=
  if !looksLikeId farmId then ⟨400, .err "farmId inválido.", db⟩
  else
    match assertFarmOwner db farmId userId with
    | none => ⟨403, .err "Sin acceso a esa finca.", db⟩
    | some _ =>
      let ts := (db.tasks.filter (fun t => t.farmId == farmId)).mergeSort taskListOrder
      ⟨200, .taskList ts, db⟩

/-- The validated fields of a task-creation request body. -/
structure TaskFields where
  title : String
  zone : Option String
  type : String
  priority : String
  start : DateTime
  due : DateTime
  status : String
  owner : Option String
  deriving Repr, DecidableEq

/-- The validation chain of POST /api/farms/:id/tasks, in source order. -/
def postTaskFields (body : Json) : Except String TaskFields :=
  let finalTitle := cleanName (body.getField "title") ""
  if finalTitle == "" then .error "title es requerido."
  else
    let finalType := cleanName (body.getField "type") "Mantenimiento"
    let finalPriority := cleanName (body.getField "priority") "Media"
    let finalStatus := cleanName (body.getField "status") "Pendiente"
    let zoneV := body.getField "zone"
    let finalZone :=
      if isNonEmptyString zoneV then some (zoneV.asString.jsTrim.take 120) else none
    let ownerV := body.getField "owner"
    let finalOwner :=
      if isNonEmptyString ownerV then some (ownerV.asString.jsTrim.take 80) else none
    match parseISODateOnlyToUTC (body.getField "start") with
    | none => .error "start debe ser YYYY-MM-DD."
    | some startDate =>
      match parseISODateOnlyToUTC (body.getField "due") with
      | none => .error "due debe ser YYYY-MM-DD."
      | some dueDate =>
        if startDate.toMillis > dueDate.toMillis then
          .error "start no puede ser posterior a due."
        else
          .ok ⟨finalTitle, finalZone, finalType, finalPriority, startDate, dueDate,
            finalStatus, finalOwner⟩

/-- POST /api/farms/:id/tasks. -/
def postTask (db : DB) (userId farmId : String) (body : Json) (now : DateTime) : HRes :=
  if !looksLikeId farmId then ⟨400, .err "farmId inválido.", db⟩
  else
    match assertFarmOwner db farmId userId with
    | none => ⟨403, .err "Sin acceso a esa finca.", db⟩
    | some _ =>
      match postTaskFields body with
      | .error msg => ⟨400, .err msg, db⟩
      | .ok f =>
        let t : Task :=
          { id := genId db.nextId, farmId := farmId, title := f.title, zone := f.zone,
            type := f.type, priority := f.priority, start := f.start, due := f.due,
            status := f.status, owner := f.owner,
            createdAt := now.toMillis, updatedAt := now.toMillis }
        ⟨201, .taskData t, { db with tasks := db.tasks ++ [t], nextId := db.nextId + 1 }⟩

/-- The field-by-field `data` build of PUT task, applied to the existing
row; `throw` is an early `return res.status(400)`. -/
def putTaskFields (existing : Task) (body : Json) : Except String Task :=
  let titleStep : Except String (Option String) :=
    match body.getField "title" with
    | .undef => .ok none
    | v =>
      let ft := cleanName v ""
      if ft == "" then .error "title inválido."
      else .ok (some ft)
  match titleStep with
  | .error e => .error e
  | .ok newTitle =>
    let newZone : Option (Option String) :=
      match body.getField "zone" with
      | .undef => none
      | v => some (if isNonEmptyString v then some (v.asString.jsTrim.take 120) else none)
    let newType : Option String :=
      match body.getField "type" with
      | .undef => none
      | v => some (cleanName v "Mantenimiento")
    let newPriority : Option String :=
      match body.getField "priority" with
      | .undef => none
      | v => some (cleanName v "Media")
    let newStatus : Option String :=
      match body.getField "status" with
      | .undef => none
      | v => some (cleanName v "Pendiente")
    let newOwner : Option (Option String) :=
      match body.getField "owner" with
      | .undef => none
      | v => some (if isNonEmptyString v then some (v.asString.jsTrim.take 80) else none)
    let startStep : Except String (Option DateTime) :=
      if (body.getField "start").isUndef then .ok none
      else
        match parseISODateOnlyToUTC (body.getField "start") with
        | none => .error "start debe ser YYYY-MM-DD."
        | some d => .ok (some d)
    match startStep with
    | .error e => .error e
    | .ok newStart =>
      let dueStep : Except String (Option DateTime) :=
        if (body.getField "due").isUndef then .ok none
        else
          match parseISODateOnlyToUTC (body.getField "due") with
          | none => .error "due debe ser YYYY-MM-DD."
          | some d => .ok (some d)
      match dueStep with
      | .error e => .error e
      | .ok newDue =>
        if (newStart.getD existing.start).toMillis >
            (newDue.getD existing.due).toMillis then
          .error "start no puede ser posterior a due."
        else
          .ok { existing with
            title := newTitle.getD existing.title,
            zone := newZone.getD existing.zone,
            type := newType.getD existing.type,
            priority := newPriority.getD existing.priority,
            status := newStatus.getD existing.status,
            owner := newOwner.getD existing.owner,
            start := newStart.getD existing.start,
            due := newDue.getD existing.due }

/-- PUT /api/farms/:id/tasks/:taskId. -/
def putTask (db : DB) (userId farmId taskId : String) (body : Json)
    (now : DateTime) : HRes :=
  if !(looksLikeId farmId && looksLikeId taskId) then ⟨400, .err "IDs inválidos.", db⟩
  else
    match assertFarmOwner db farmId userId with
    | none => ⟨403, .err "Sin acceso a esa finca.", db⟩
    | some _ =>
      match db.tasks.find? (fun t => t.id == taskId && t.farmId == farmId) with
      | none => ⟨404, .err "Tarea no encontrada.", db⟩
      | some existing =>
        match putTaskFields existing body with
        | .error msg => ⟨400, .err msg, db⟩
        | .ok t =>
          let t2 := { t with updatedAt := now.toMillis }
          ⟨200, .taskData t2,
            { db with tasks := db.tasks.map (fun r => if r.id == taskId then t2 else r) }⟩

/-- DELETE /api/farms/:id/tasks/:taskId. -/
def deleteTask (db : DB) (userId farmId taskId : String) : HRes :=
  if !(looksLikeId farmId && looksLikeId taskId) then ⟨400, .err "IDs inválidos.", db⟩
  else
    match assertFarmOwner db farmId userId with
    | none => ⟨403, .err "Sin acceso a esa finca.", db⟩
    | some _ =>
      match db.tasks.find? (fun t => t.id == taskId && t.farmId == farmId) with
      | none => ⟨404, .err "Tarea no encontrada.", db⟩
      | some _ =>
        ⟨200, .deleted, { db with tasks := db.tasks.filter (fun r => !(r.id == taskId)) }⟩

/-! ## Finance movement routes -/

/-- Ordering of movement listings:
`orderBy: [{ date: "desc" }, { createdAt: "desc" }]`. -/
def movListOrder (a b : FinanceMovement) : Bool :=
  b.date.toMillis < a.date.toMillis ||
    (a.date.toMillis == b.date.toMillis && b.createdAt ≤ a.createdAt)

/-- GET /api/farms/:id/finance/movements. -/
def getMovements (db : DB) (userId farmId : String) : HRes :=
  if !looksLikeId farmId then ⟨400, .err "farmId inválido.", db⟩
  else
    match assertFarmOwner db farmId userId with
    | none => ⟨403, .err "Sin acceso a esa finca.", db⟩
    | some _ =>
      let ms := (db.movements.filter (fun m => m.farmId == farmId)).mergeSort movListOrder
      ⟨200, .movementList ms, db⟩

/-- The validated fields of a finance movement request body. -/
structure MovementFields where
  date : DateTime
  concept : String
  category : String
  type : String
  amount : ℚ
  note : Option String
  invoiceNumber : Option String
  deriving Repr, DecidableEq

/-- The validation chain of POST /api/farms/:id/finance/movements, in
source order.  (`parseDateAnyToUTC(date) || new Date()` never yields a
falsy value, so the `date inválida` branch of the source is dead
code.) -/
def postMovementFields (body : Json) (now : DateTime) : Except String MovementFields :=
  let conceptV := body.getField "concept"
  let finalConcept :=
    if isNonEmptyString conceptV then conceptV.asString.jsTrim.take 160 else ""
  if finalConcept == "" then .error "concept es requerido."
  else
    let catV := body.getField "category"
    let rawCategory :=
      if isNonEmptyString catV then catV.asString.jsTrim.take 80 else "General"
    let finalCategory := keywordCategory finalConcept rawCategory
    match normalizeType (body.getField "type") with
    | none => .error "type debe ser \"Ingreso\" o \"Gasto\"."
    | some finalType =>
      match parseAmount (body.getField "amount") with
      | none => .error "amount inválido (debe ser número >= 0)."
      | some finalAmount =>
        let finalDate := (parseDateAnyToUTC (body.getField "date")).getD now
        let noteV := body.getField "note"
        let finalNote :=
          if isNonEmptyString noteV then some (noteV.asString.jsTrim.take 240) else none
        let invV := body.getField "invoiceNumber"
        let finalInvoice :=
          if isNonEmptyString invV then some (invV.asString.jsTrim.take 60) else none
        .ok ⟨finalDate, finalConcept, finalCategory, finalType, finalAmount,
          finalNote, finalInvoice⟩

/-- POST /api/farms/:id/finance/movements. -/
def postMovement (db : DB) (userId farmId : String) (body : Json)
    (now : DateTime) : HRes :=
  if !looksLikeId farmId then ⟨400, .err "farmId inválido.", db⟩
  else
    match assertFarmOwner db farmId userId with
    | none => ⟨403, .err "Sin acceso a esa finca.", db⟩
    | some _ =>
      match postMovementFields body now with
      | .error msg => ⟨400, .err msg, db⟩
      | .ok f =>
        let m : FinanceMovement :=
          { id := genId db.nextId, farmId := farmId, date := f.date,
            concept := f.concept, category := f.category, type := f.type,
            amount := f.amount, note := f.note, invoiceNumber := f.invoiceNumber,
            createdAt := now.toMillis, updatedAt := now.toMillis }
        ⟨201, .movementData m,
          { db with movements := db.movements ++ [m], nextId := db.nextId + 1 }⟩

/-- The field-by-field `data` build of PUT movement, including the
category recomputation when concept or category changed. -/
def putMovementFields (existing : FinanceMovement) (body : Json) :
    Except String FinanceMovement :=
  let conceptStep : Except String (Option String) :=
    match body.getField "concept" with
    | .undef => .ok none
    | v =>
      let fc := if isNonEmptyString v then v.asString.jsTrim.take 160 else ""
      if fc == "" then .error "concept inválido."
      else .ok (some fc)
  match conceptStep with
  | .error e => .error e
  | .ok newConcept =>
    let rawCategory : Option String :=
      match body.getField "category" with
      | .undef => none
      | v => some (if isNonEmptyString v then v.asString.jsTrim.take 80 else "General")
    let newCategory : Option String :=
      if newConcept.isSome || rawCategory.isSome then
        some (keywordCategory (newConcept.getD existing.concept)
          (rawCategory.getD existing.category))
      else none
    let typeStep : Except String (Option String) :=
      if (body.getField "type").isUndef then .ok none
      else
        match normalizeType (body.getField "type") with
        | none => .error "type debe ser \"Ingreso\" o \"Gasto\"."
        | some ft => .ok (some ft)
    match typeStep with
    | .error e => .error e
    | .ok newType =>
      let amountStep : Except String (Option ℚ) :=
        match body.getField "amount" with
        | .undef => .ok none
        | v =>
          match parseAmount v with
          | none => .error "amount inválido (debe ser número >= 0)."
          | some fa => .ok (some fa)
      match amountStep with
      | .error e => .error e
      | .ok newAmount =>
        let dateStep : Except String (Option DateTime) :=
          match body.getField "date" with
          | .undef => .ok none
          | v =>
            match parseDateAnyToUTC v with
            | none => .error "date inválida."
            | some fd => .ok (some fd)
        match dateStep with
        | .error e => .error e
        | .ok newDate =>
          let newNote : Option (Option String) :=
            match body.getField "note" with
            | .undef => none
            | v => some (if isNonEmptyString v then some (v.asString.jsTrim.take 240) else none)
          let newInvoice : Option (Option String) :=
            match body.getField "invoiceNumber" with
            | .undef => none
            | v => some (if isNonEmptyString v then some (v.asString.jsTrim.take 60) else none)
          .ok { existing with
            concept := newConcept.getD existing.concept,
            category := newCategory.getD existing.category,
            type := newType.getD existing.type,
            amount := newAmount.getD existing.amount,
            date := newDate.getD existing.date,
            note := newNote.getD existing.note,
            invoiceNumber := newInvoice.getD existing.invoiceNumber }

/-- PUT /api/farms/:id/finance/movements/:movementId. -/
def putMovement (db : DB) (userId farmId movementId : String) (body : Json)
    (now : DateTime) : HRes :=
  if !(looksLikeId farmId && looksLikeId movementId) then
    ⟨400, .err "IDs inválidos.", db⟩
  else
    match assertFarmOwner db farmId userId with
    | none => ⟨403, .err "Sin acceso a esa finca.", db⟩
    | some _ =>
      match db.movements.find? (fun m => m.id == movementId && m.farmId == farmId) with
      | none => ⟨404, .err "Movimiento no encontrado.", db⟩
      | some existing =>
        match putMovementFields existing body with
        | .error msg => ⟨400, .err msg, db⟩
        | .ok m =>
          let m2 := { m with updatedAt := now.toMillis }
          ⟨200, .movementData m2,
            { db with movements := db.movements.map (fun r =>
                if r.id == movementId then m2 else r) }⟩

/-- DELETE /api/farms/:id/finance/movements/:movementId. -/
def deleteMovement (db : DB) (userId farmId movementId : String) : HRes :=
  if !(looksLikeId farmId && looksLikeId movementId) then
    ⟨400, .err "IDs inválidos.", db⟩
  else
    match assertFarmOwner db farmId userId with
    | none => ⟨403, .err "Sin acceso a esa finca.", db⟩
    | some _ =>
      match db.movements.find? (fun m => m.id == movementId && m.farmId == farmId) with
      | none => ⟨404, .err "Movimiento no encontrado.", db⟩
      | some _ =>
        ⟨200, .deleted,
          { db with movements := db.movements.filter (fun r => !(r.id == movementId)) }⟩

/-! ## Asset routes -/

/-- Ordering of asset listings:
`orderBy: [{ purchaseDate: "desc" }, { createdAt: "desc" }]`. -/
def assetListOrder (a b : Asset) : Bool :=
  b.purchaseDate.toMillis < a.purchaseDate.toMillis ||
    (a.purchaseDate.toMillis == b.purchaseDate.toMillis && b.createdAt ≤ a.createdAt)

/-- GET /api/farms/:id/finance/assets. -/
def getAssets (db : DB) (userId farmId : String) : HRes :=
  if !looksLikeId farmId then ⟨400, .err "farmId inválido.", db⟩
  else
    match assertFarmOwner db farmId userId with
    | none => ⟨403, .err "Sin acceso a esa finca.", db⟩
    | some _ =>
      let xs := (db.assets.filter (fun a => a.farmId == farmId)).mergeSort assetListOrder
      ⟨200, .assetList xs, db⟩

/-- POST /api/farms/:id/finance/assets. -/
def postAsset (db : DB) (userId farmId : String) (body : Json)
    (now : DateTime) : HRes :=
  if !looksLikeId farmId then ⟨400, .err "farmId inválido.", db⟩
  else
    match assertFarmOwner db farmId userId with
    | none => ⟨403, .err "Sin acceso a esa finca.", db⟩
    | some _ =>
      let nameV := body.getField "name"
      let finalName := if isNonEmptyString nameV then nameV.asString.jsTrim.take 120 else ""
      if finalName == "" then ⟨400, .err "name es requerido.", db⟩
      else
        let catV := body.getField "category"
        let finalCategory :=
          if isNonEmptyString catV then catV.asString.jsTrim.take 60 else "Equipos"
        match parseAmount (body.getField "purchaseValue") with
        | none => ⟨400, .err "purchaseValue inválido.", db⟩
        | some pv =>
          let rvV := body.getField "residualValue"
          let rvOpt :=
            match rvV with
            | .undef => some (0 : ℚ)
            | .null => some (0 : ℚ)
            | v => parseAmount v
          match rvOpt with
          | none => ⟨400, .err "residualValue inválido.", db⟩
          | some rv =>
            let pd := (parseDateAnyToUTC (body.getField "purchaseDate")).getD now
            let ulyV := body.getField "usefulLifeYears"
            let ulyOpt :=
              match ulyV with
              | .undef => some (1 : ℚ)
              | .null => some (1 : ℚ)
              | v => jsNumber v
            match ulyOpt with
            | none => ⟨400, .err "usefulLifeYears inválido (1–50).", db⟩
            | some uly =>
              if uly ≤ 0 ∨ uly > 50 then
                ⟨400, .err "usefulLifeYears inválido (1–50).", db⟩
              else
                let a : Asset :=
                  { id := genId db.nextId, farmId := farmId, name := finalName,
                    category := finalCategory, purchaseValue := pv,
                    purchaseDate := pd, usefulLifeYears := uly, residualValue := rv,
                    createdAt := now.toMillis, updatedAt := now.toMillis }
                ⟨201, .assetData a,
                  { db with assets := db.assets ++ [a], nextId := db.nextId + 1 }⟩

/-- The field-by-field `data` build of PUT asset. -/
def putAssetFields (existing : Asset) (body : Json) : Except String Asset := do
  let a1 ←
    match body.getField "name" with
    | .undef => pure existing
    | v =>
      let fn := if isNonEmptyString v then v.asString.jsTrim.take 120 else ""
      if fn == "" then throw "name inválido."
      else pure { existing with name := fn }
  let a2 :=
    match body.getField "category" with
    | .undef => a1
    | v => { a1 with category :=
        if isNonEmptyString v then v.asString.jsTrim.take 60 else "Equipos" }
  let a3 ←
    match body.getField "purchaseValue" with
    | .undef => pure a2
    | v =>
      match parseAmount v with
      | none => throw "purchaseValue inválido."
      | some pv => pure { a2 with purchaseValue := pv }
  let a4 ←
    match body.getField "purchaseDate" with
    | .undef => pure a3
    | v =>
      match parseDateAnyToUTC v with
      | none => throw "purchaseDate inválida."
      | some pd => pure { a3 with purchaseDate := pd }
  let a5 ←
    match body.getField "usefulLifeYears" with
    | .undef => pure a4
    | v =>
      match jsNumber v with
      | none => throw "usefulLifeYears inválido (1–50)."
      | some uly =>
        if uly ≤ 0 ∨ uly > 50 then throw "usefulLifeYears inválido (1–50)."
        else pure { a4 with usefulLifeYears := uly }
  let a6 ←
    match body.getField "residualValue" with
    | .undef => pure a5
    | .null => pure { a5 with residualValue := 0 }
    | v =>
      match parseAmount v with
      | none => throw "residualValue inválido."
      | some rv => pure { a5 with residualValue := rv }
  pure a6

/-- PUT /api/farms/:id/finance/assets/:assetId. -/
def putAsset (db : DB) (userId farmId assetId : String) (body : Json)
    (now : DateTime) : HRes :=
  if !(looksLikeId farmId && looksLikeId assetId) then ⟨400, .err "IDs inválidos.", db⟩
  else
    match assertFarmOwner db farmId userId with
    | none => ⟨403, .err "Sin acceso a esa finca.", db⟩
    | some _ =>
      match db.assets.find? (fun a => a.id == assetId && a.farmId == farmId) with
      | none => ⟨404, .err "Activo no encontrado.", db⟩
      | some existing =>
        match putAssetFields existing body with
        | .error msg => ⟨400, .err msg, db⟩
        | .ok a =>
          let a2 := { a with updatedAt := now.toMillis }
          ⟨200, .assetData a2,
            { db with assets := db.assets.map (fun r => if r.id == assetId then a2 else r) }⟩

/-- DELETE /api/farms/:id/finance/assets/:assetId. -/
def deleteAsset (db : DB) (userId farmId assetId : String) : HRes :=
  if !(looksLikeId farmId && looksLikeId assetId) then ⟨400, .err "IDs inválidos.", db⟩
  else
    match assertFarmOwner db farmId userId with
    | none => ⟨403, .err "Sin acceso a esa finca.", db⟩
    | some _ =>
      match db.assets.find? (fun a => a.id == assetId && a.farmId == farmId) with
      | none => ⟨404, .err "Activo no encontrado.", db⟩
      | some _ =>
        ⟨200, .deleted,
          { db with assets := db.assets.filter (fun r => !(r.id == assetId)) }⟩

/-! ## Finance insights (GET /api/farms/:id/finance/insights) -/

/-- The per-list aggregation `sumByType` of the insights handler. -/
structure SumAgg where
  ingresos : ℚ
  gastos : ℚ
  balance : ℚ
  margen : ℚ
  deriving Repr, DecidableEq

def sumByType (list : List FinanceMovement) : SumAgg :=
  let p := list.foldl (fun (acc : ℚ × ℚ) m =>
    if m.type == "Ingreso" then (acc.1 + m.amount, acc.2)
    else if m.type == "Gasto" then (acc.1, acc.2 + m.amount)
    else acc) (0, 0)
  ⟨p.1, p.2, p.1 - p.2, if p.1 > 0 then ((p.1 - p.2) / p.1) * 100 else 0⟩

/-- `map.set(k, (map.get(k) || 0) + v)` on an insertion-ordered map. -/
def alAdd (al : List (String × ℚ)) (k : String) (v : ℚ) : List (String × ℚ) :=
  if al.any (fun p => p.1 == k) then
    al.map (fun p => if p.1 == k then (p.1, p.2 + v) else p)
  else al ++ [(k, v)]

/-- The `{ sum, n }` accumulation of the per-category statistics. -/
def alStat (al : List (String × ℚ × Nat)) (k : String) (v : ℚ) :
    List (String × ℚ × Nat) :=
  if al.any (fun p => p.1 == k) then
    al.map (fun p => if p.1 == k then (p.1, p.2.1 + v, p.2.2 + 1) else p)
  else al ++ [(k, v, 1)]

/-- `Number#toFixed(1)`: round the magnitude half-up to tenths. -/
def jsToFixed1Abs (q : ℚ) : String :=
  let n := ⌊q * 10 + 1/2⌋
  toString (n.ediv 10) ++ "." ++ toString (n.emod 10)

def jsToFixed1 (q : ℚ) : String :=
  if q < 0 then "-" ++ jsToFixed1Abs (-q) else jsToFixed1Abs q

/-- JS number rendering; exact on integers (the only numeric shape the
rules are exercised with), an injective rendering otherwise. -/
def jsNumRender (q : ℚ) : String :=
  if q.den == 1 then toString q.num else toString q.num ++ "/" ++ toString q.den

mutual

/-- JS `String(v)` coercion on JSON values. -/
def jsToString : Json → String
  | .undef => "undefined"
  | .null => "null"
  | .bool b => cond b "true" "false"
  | .num q => jsNumRender q
  | .str s => s
  | .arr xs => jsArrToString xs
  | .obj _ => "[object Object]"

/-- `Array#toString` joins with "," and renders null/undefined as "". -/
def jsArrToString : List Json → String
  | [] => ""
  | [x] => jsArrElemToString x
  | x :: rest => jsArrElemToString x ++ "," ++ jsArrToString rest

def jsArrElemToString : Json → String
  | .undef => ""
  | .null => ""
  | x => jsToString x

end

/-- `String(x || "")`. -/
def jsStringOrEmpty (x : Json) : String :=
  if x.truthy then jsToString x else ""

/-- The current-month window filter of the insights handler
(`d >= startOfMonthUTC(now) && d < startOfNextMonthUTC(now)`). -/
def monthMovsOf (movements : List FinanceMovement) (now : DateTime) :
    List FinanceMovement :=
  movements.filter (fun m =>
    (startOfMonthUTC now).toMillis ≤ m.date.toMillis &&
      m.date.toMillis < (startOfNextMonthUTC now).toMillis)

/-- The previous-month movements (`monthKeyUTC(m.date) === prevMonth`). -/
def prevMovsOf (movements : List FinanceMovement) (now : DateTime) :
    List FinanceMovement :=
  movements.filter (fun m => monthKeyUTC m.date == prevMonthKey (monthKeyUTC now))

/-- `variation` of the insights handler. -/
def variationOf (movements : List FinanceMovement) (now : DateTime) : Variation :=
  let cur := sumByType (monthMovsOf movements now)
  let prev := sumByType (prevMovsOf movements now)
  ⟨cur.ingresos - prev.ingresos, cur.gastos - prev.gastos, cur.balance - prev.balance⟩

/-- `summary` of the insights handler. -/
def summaryOf (movements : List FinanceMovement) (now : DateTime) : Summary :=
  let cur := sumByType (monthMovsOf movements now)
  ⟨monthKeyUTC now, cur.ingresos, cur.gastos, cur.balance, cur.margen,
    variationOf movements now⟩

/-- `catMap` (top categories of the month, insertion ordered). -/
def catMapOf (monthMovs : List FinanceMovement) : List (String × ℚ) :=
  monthMovs.foldl (fun al m =>
    alAdd al (keywordCategory m.concept m.category) m.amount) []

/-- `topCategories`: totals sorted descending (stable), first three. -/
def topCategoriesOf (monthMovs : List FinanceMovement) : List CatTotal :=
  (((catMapOf monthMovs).map (fun p => CatTotal.mk p.1 p.2)).mergeSort
    (fun a b => b.total ≤ a.total)).take 3

/-- Exact-duplicate count keyed on date|amount|normalized concept.  The
joined string key is modelled as the component triple: the date part has
fixed width and the JS rendering of a number contains no `|`, so two keys
are equal exactly when the triples are. -/
def dupCountOf (monthMovs : List FinanceMovement) : Nat :=
  (monthMovs.foldl (fun (st : List (String × ℚ × String) × Nat) m =>
    let k := (toYYYYMMDD m.date, m.amount, normalizeText m.concept)
    if st.1.contains k then (st.1, st.2 + 1) else (k :: st.1, st.2)) ([], 0)).2

/-- The `audit` block of the insights handler. -/
def auditOf (monthMovs : List FinanceMovement) : Audit :=
  { missingCategory := (monthMovs.filter (fun m => !isNonEmptyStr m.category)).length,
    tooGeneralCategory := (monthMovs.filter (fun m => m.category == "General")).length,
    genericConcept := (monthMovs.filter (fun m =>
      let t := normalizeText m.concept
      t == "compra" || t == "venta" || t == "gasto" || t == "ingreso")).length,
    possibleDuplicates := dupCountOf monthMovs,
    invoiceMissing := (monthMovs.filter (fun m =>
      m.type == "Gasto" && !(match m.invoiceNumber with
        | some s => isNonEmptyStr s
        | none => false))).length }

/-- The anomaly list (unusual movement, duplicates, new category, weekly
spike), in push order. -/
def anomaliesOf (monthMovs prevMovs : List FinanceMovement) : List Anomaly :=
  let catStats := monthMovs.foldl (fun al m =>
    alStat al (keywordCategory m.concept m.category) m.amount) []
  let anom1 := monthMovs.filterMap (fun m =>
    let cat := keywordCategory m.concept m.category
    match catStats.find? (fun p => p.1 == cat) with
    | none => none
    | some p =>
      if p.2.2 < 3 then none
      else
        let avg := p.2.1 / (p.2.2 : ℚ)
        if avg > 0 ∧ m.amount > 2.5 * avg then
          some (Anomaly.mk "Movimiento inusual"
            ("\"" ++ m.concept ++ "\" en " ++ cat ++ " es muy alto vs tu promedio.")
            (some m.id))
        else none)
  let dupCount := dupCountOf monthMovs
  let anom2 :=
    if dupCount > 0 then
      [Anomaly.mk "Posibles duplicados"
        ("Detectamos " ++ toString dupCount ++ " movimiento(s) que parecen repetidos.")
        none]
    else []
  let prevCats := prevMovs.map (fun m => keywordCategory m.concept m.category)
  let newCats := ((topCategoriesOf monthMovs).map (fun x => x.category)).filter
    (fun c => !prevCats.contains c)
  let anom3 :=
    match newCats with
    | [] => []
    | c :: _ =>
      [Anomaly.mk "Categoría nueva"
        ("Este mes apareció una categoría nueva: " ++ c ++ ".") none]
  let weekMap := monthMovs.foldl (fun al m =>
    if m.type != "Gasto" then al
    else
      let dayDays := daysFromCivil m.date.year m.date.month m.date.day
      let dow := (dayDays + 4).emod 7
      let mondayBased := (dow + 6).emod 7
      let weekStart := dateFromMillis ((dayDays - mondayBased) * MS_DAY + NOON_MS)
      alAdd al (toYYYYMMDD weekStart) m.amount) []
  let weeks := weekMap.map (fun p => p.2)
  let anom4 :=
    if weeks.length ≥ 2 then
      let avgW := weeks.sum / (weeks.length : ℚ)
      let maxW := weeks.foldl max (weeks.headD 0)
      if avgW > 0 ∧ maxW > 1.8 * avgW then
        [Anomaly.mk "Pico semanal"
          "Se detectó una semana con gastos anormalmente altos." none]
      else []
    else []
  anom1 ++ anom2 ++ anom3 ++ anom4

/-- The health-score computation of the insights handler.  `Math.round`
is the identity on these integer scores, and the clamp keeps the result
in `[0, 100]`. -/
def healthScoreOf (movements : List FinanceMovement) (now : DateTime) : Int :=
  let monthMovs := monthMovsOf movements now
  let cur := sumByType monthMovs
  let variation := variationOf movements now
  let audit := auditOf monthMovs
  let score : Int := 50
    + (if cur.balance > 0 then 15 else 0)
    + (if cur.ingresos > 0 ∧ cur.margen ≥ 20 then 10 else 0)
    - (if cur.ingresos > 0 ∧ cur.margen < 0 then 15 else 0)
    + (if variation.balance > 0 then 8 else 0)
    - (if audit.tooGeneralCategory > 3 then 8 else 0)
    - (if audit.missingCategory > 0 then 6 else 0)
    - (if audit.possibleDuplicates > 0 then 6 else 0)
    - (if audit.invoiceMissing > 2 then 6 else 0)
  max 0 (min 100 score)

/-- The 30-day projection: average balance of the (up to) last three
calendar months with movements.  `localeCompare` on `YYYY-MM` keys is
plain lexicographic order. -/
def projection30Of (movements : List FinanceMovement) : ℚ :=
  let byMonth := movements.foldl (fun (al : List (String × ℚ × ℚ)) m =>
    let mk := monthKeyUTC m.date
    if mk == "" then al
    else if al.any (fun p => p.1 == mk) then
      al.map (fun p =>
        if p.1 == mk then
          (p.1,
            if m.type == "Ingreso" then (p.2.1 + m.amount, p.2.2)
            else if m.type == "Gasto" then (p.2.1, p.2.2 + m.amount) else p.2)
        else p)
    else
      al ++ [(mk,
        if m.type == "Ingreso" then (m.amount, (0 : ℚ))
        else if m.type == "Gasto" then ((0 : ℚ), m.amount) else ((0 : ℚ), (0 : ℚ)))]) []
  let monthsSorted := (byMonth.mergeSort (fun a b => a.1 ≤ b.1)).map
    (fun p => p.2.1 - p.2.2)
  let last3 := monthsSorted.drop (monthsSorted.length - 3)
  if last3.length > 0 then last3.sum / (last3.length : ℚ) else 0

/-- The finance-suggestion candidates, in the push order of the handler
(the guards never read the push state, so running the deduplicating push
over this list is the same computation as the source sequence of
guarded pushes). -/
def finCandsOf (movements : List FinanceMovement) (zones : List MapZone)
    (tasks : List Task) (now : DateTime) : List (Option FinSug) :=
  let thisMonth := monthKeyUTC now
  let monthMovs := monthMovsOf movements now
  let cur := sumByType monthMovs
  let audit := auditOf monthMovs
  let topCategories := topCategoriesOf monthMovs
  let today := toYYYYMMDD now
  let hasActiveTaskLike := fun (kws : List String) =>
    let keys := (kws.map normalizeText).filter (fun k => k != "")
    if keys.isEmpty then false
    else tasks.any (fun t =>
      if t.status == "Completada" then false
      else
        let hay := normalizeText
          (t.title ++ " " ++ (match t.zone with | some z => z | none => ""))
        keys.any (fun k => strIncludes hay k))
  let topNorm := topCategories.map (fun x => normalizeText x.category)
  let topHas := fun (names : List String) =>
    (names.map normalizeText).any (fun w => topNorm.contains w)
  let mkPayload := fun (title zone ty priority : String) =>
    ActionPayload.mk title zone ty priority today today "Pendiente" ""
  let c1 : Option FinSug :=
    if monthMovs.length == 0 then
      some ⟨"FIN_BOOT_" ++ thisMonth, "FIN_BOOT", "Activar finanzas del mes",
        "No hay movimientos registrados este mes. Agregá al menos 5 (ingresos y gastos) para que el análisis sea más preciso.",
        some (mkPayload "Registrar movimientos iniciales del mes" "" "Mantenimiento" "Alta")⟩
    else none
  let c2 : Option FinSug :=
    if audit.invoiceMissing > 0 && !hasActiveTaskLike ["factura", "recibo"] then
      some ⟨"FIN_INVOICE_" ++ thisMonth, "FIN_INVOICE_MISSING",
        "Completar facturas faltantes",
        "Hay " ++ toString audit.invoiceMissing ++ " gasto(s) sin número de factura/recibo. Eso debilita control y auditoría.",
        some (mkPayload "Completar facturas faltantes en gastos" "" "Mantenimiento" "Media")⟩
    else none
  let c3 : Option FinSug :=
    if (audit.missingCategory > 0 || audit.tooGeneralCategory > 0)
        && !hasActiveTaskLike ["categoria", "categoría"] then
      some ⟨"FIN_CATS_" ++ thisMonth, "FIN_FIX_CATEGORIES", "Ordenar categorías",
        "Tenés " ++ toString audit.missingCategory ++ " sin categoría y " ++
          toString audit.tooGeneralCategory ++
          " en \"General\". Clasificar mejora reportes y decisiones.",
        some (mkPayload "Auditar categorías de movimientos" "" "Mantenimiento" "Media")⟩
    else none
  let c4 : Option FinSug :=
    if audit.possibleDuplicates > 0 && !hasActiveTaskLike ["duplicad", "repetid"] then
      some ⟨"FIN_DUPS_" ++ thisMonth, "FIN_DUPLICATES", "Revisar posibles duplicados",
        "Detectamos " ++ toString audit.possibleDuplicates ++ " movimiento(s) posiblemente duplicados. Revisarlos evita distorsión del balance.",
        some (mkPayload "Revisar duplicados en movimientos" "" "Mantenimiento" "Media")⟩
    else none
  let c5 : Option FinSug :=
    if decide (cur.ingresos > 0) && decide (cur.margen < 10)
        && !hasActiveTaskLike ["margen", "costos", "coste"] then
      some ⟨"FIN_MARGIN_" ++ thisMonth, "FIN_LOW_MARGIN", "Mejorar margen",
        "El margen del mes está en " ++ jsToFixed1 cur.margen ++
          "%. Recomendación: revisar costos silenciosos y renegociar insumos.",
        some (mkPayload "Revisión de costos para mejorar margen" "" "Mantenimiento" "Alta")⟩
    else none
  let c6 : Option FinSug :=
    if topHas ["transporte", "combustible"] && !hasActiveTaskLike ["rutas", "combustible"] then
      some ⟨"FIN_TRANSPORTE_" ++ thisMonth, "FIN_HIGH_TRANSPORT", "Optimizar rutas",
        "Gasto alto en transporte/combustible. Recomendación: revisar rutas y recorridos para reducir costos.",
        some (mkPayload "Optimizar rutas y consumo de combustible" "" "Mantenimiento" "Media")⟩
    else none
  let c7 : Option FinSug :=
    if topHas ["alimentacion", "alimentación"] && !hasActiveTaskLike ["aliment"] then
      some ⟨"FIN_ALIMENTACION_" ++ thisMonth, "FIN_HIGH_FEED",
        "Revisar eficiencia de alimentación",
        "Gasto alto en alimentación. Recomendación: revisar consumo, desperdicio y calendario de suministro.",
        some (mkPayload "Revisar eficiencia de alimentación" "" "Alimentación" "Media")⟩
    else none
  let c8 : Option FinSug :=
    if topHas ["fertilizantes", "abono", "fertiliz"] && !hasActiveTaskLike ["fertiliz", "abono"] then
      some ⟨"FIN_FERT_" ++ thisMonth, "FIN_HIGH_FERT", "Optimizar plan de fertilización",
        "Inversión alta en fertilización. Recomendación: revisar dosis, calendario y necesidades por zona/cultivo.",
        some (mkPayload "Optimizar plan de fertilización por zona" "" "Mantenimiento" "Media")⟩
    else none
  let c9 : Option FinSug :=
    if topHas ["venta", "ventas"] && !hasActiveTaskLike ["ventas", "clientes", "producto"] then
      some ⟨"FIN_SALES_" ++ thisMonth, "FIN_SALES_ORDER", "Ordenar registro de ventas",
        "Ventas son top este mes. Recomendación: registrar ventas con mejor detalle (producto/cliente/canal) para medir rentabilidad real.",
        some (mkPayload "Mejorar detalle de registro de ventas" "" "Mantenimiento" "Media")⟩
    else none
  let zoneCands : List (Option FinSug) := (zones.map (fun z =>
    let zoneName :=
      match z.name with
      | some s => if isNonEmptyStr s then s.jsTrim else ""
      | none => ""
    if zoneName == "" then ([] : List (Option FinSug))
    else
      let isObjLike := match z.components with
        | .obj _ => true
        | .arr _ => true
        | _ => false
      let c := if isObjLike then z.components else .obj []
      let hasAnimals := (c.getField "animales").truthy || (c.getField "animal").truthy
        || (c.getField "animals").truthy || (c.getField "ganado").truthy
      let hasCrops := (c.getField "cultivos").truthy || (c.getField "cultivo").truthy
        || (c.getField "crops").truthy || (c.getField "plantas").truthy
      [ (if hasAnimals && topHas ["sanidad"] && !hasActiveTaskLike ["sanidad"] then
          some ⟨("MAP_FIN_SANIDAD_" ++ zoneName ++ "_" ++ thisMonth).take 180,
            "MAP_FIN_SANIDAD", "Chequeo sanitario (" ++ zoneName ++ ")",
            "Hay gasto relevante en Sanidad y la zona \"" ++ zoneName ++
              "\" tiene animales. Recomendación: chequeo sanitario y control preventivo.",
            some (ActionPayload.mk ("Chequeo sanitario - " ++ zoneName) zoneName
              "Mantenimiento" "Media" today today "Pendiente" "")⟩
        else none),
        (if hasCrops && topHas ["fertilizantes"] && !hasActiveTaskLike ["fertiliz"] then
          some ⟨("MAP_FIN_FERT_" ++ zoneName ++ "_" ++ thisMonth).take 180,
            "MAP_FIN_FERT", "Revisión nutricional (" ++ zoneName ++ ")",
            "Hay inversión en Fertilizantes y la zona \"" ++ zoneName ++
              "\" tiene cultivos. Recomendación: revisión nutricional y plan por cultivo.",
            some (ActionPayload.mk ("Revisión nutricional - " ++ zoneName) zoneName
              "Mantenimiento" "Media" today today "Pendiente" "")⟩
        else none) ])).flatten
  [c1, c2, c3, c4, c5, c6, c7, c8, c9] ++ zoneCands

/-- The deduplicated finance suggestions.  The `pushSug` key
`code|title|message` is modelled as the component triple (codes and
titles contain no `|`). -/
def finSugsOf (movements : List FinanceMovement) (zones : List MapZone)
    (tasks : List Task) (now : DateTime) : List FinSug :=
  ((finCandsOf movements zones tasks now).foldl
    (fun (st : List (String × String × String) × List FinSug) oc =>
      match oc with
      | none => st
      | some s =>
        let key := (s.code, s.title, s.message)
        if st.1.contains key then st else (st.1 ++ [key], st.2 ++ [s])) ([], [])).2

/-- The full insights response body. -/
def computeInsights (movements : List FinanceMovement) (zones : List MapZone)
    (tasks : List Task) (now : DateTime) : Insights :=
  let monthMovs := monthMovsOf movements now
  { summary := summaryOf movements now,
    topCategories := topCategoriesOf monthMovs,
    anomalies := (anomaliesOf monthMovs (prevMovsOf movements now)).take 6,
    healthScore := healthScoreOf movements now,
    projection30 := projection30Of movements,
    projection90 := projection30Of movements * 3,
    audit := auditOf monthMovs,
    suggestions := (finSugsOf movements zones tasks now).take 8 }


/-- The movement rows the insights and movement listings read
(farm-scoped, date desc then createdAt desc). -/
def movementsOf (db : DB) (farmId : String) : List FinanceMovement :=
  (db.movements.filter (fun m => m.farmId == farmId)).mergeSort movListOrder

/-- The zone rows the insights/suggestions handlers read (farm-scoped,
no ordering clause). -/
def zonesOf (db : DB) (farmId : String) : List MapZone :=
  db.zones.filter (fun z => z.farmId == farmId)

/-- The task rows the insights/suggestions handlers read (farm-scoped,
no ordering clause). -/
def tasksOf (db : DB) (farmId : String) : List Task :=
  db.tasks.filter (fun t => t.farmId == farmId)

/-- GET /api/farms/:id/finance/insights. -/
def getInsights (db : DB) (userId farmId : String) (now : DateTime) : HRes :=
  if !looksLikeId farmId then ⟨400, .err "farmId inválido.", db⟩
  else
    match assertFarmOwner db farmId userId with
    | none => ⟨403, .err "Sin acceso a esa finca.", db⟩
    | some _ =>
      ⟨200, .insightsData (computeInsights (movementsOf db farmId)
        (zonesOf db farmId) (tasksOf db farmId) now), db⟩

/-! ## Task suggestions (GET /api/farms/:id/tasks/suggestions) -/

/-- `todayUtcNoon` of the suggestions handler. -/
def todayUtcNoon (now : DateTime) : DateTime :=
  mkUtcDateTime now.year (now.month - 1) now.day NOON_MS

/-- `s || null` on an optional string column. -/
def jsOrNull (o : Option String) : Option String :=
  match o with
  | some z => if z == "" then none else some z
  | none => none

/-- The dedup key of `pushSuggestion`:
`code:zone:title:due:message` (the suggestion objects carry no `due`
field, so that component is always empty). -/
def mkSugKey (s : Sug) : String :=
  s.code ++ ":" ++ (match s.zone with | some z => z | none => "") ++ ":" ++
    s.title ++ ":" ++ "" ++ ":" ++ s.message

structure SugState where
  seen : List String
  out : List Sug

def pushSuggestion (st : SugState) (s : Sug) : SugState :=
  let key := mkSugKey s
  if st.seen.contains key then st else ⟨st.seen ++ [key], st.out ++ [s]⟩

/-- Run the deduplicating push over a list of guarded candidates. -/
def pushAll (st : SugState) (l : List (Option Sug)) : SugState :=
  l.foldl (fun st oc =>
    match oc with
    | none => st
    | some s => pushSuggestion st s) st

/-- farms.tasks.js `hasSimilarActiveTask(zoneName, keywords)`. -/
def hasSimilarActiveTask (tasks : List Task) (zoneName : String)
    (keywords : List String) : Bool :=
  let zn := normalizeText zoneName
  let keys := (keywords.map normalizeText).filter (fun k => k != "")
  tasks.any (fun t =>
    if t.status == "Completada" then false
    else
      let tZone := normalizeText (match t.zone with | some z => z | none => "")
      if zn != "" && tZone != zn then false
      else
        let hay := normalizeText (t.title ++ " " ++ t.type)
        if keys.isEmpty then false
        else keys.any (fun k => k != "" && strIncludes hay k))

/-- farms.tasks.js `listFromUnknown(x)`. -/
def listFromUnknown (x : Json) : List Json :=
  if !x.truthy then []
  else
    match x with
    | .arr xs => xs
    | .str s => [.str s]
    | .obj fields => fields.foldl (fun out kv =>
        if kv.1 == "" then out
        else
          match kv.2 with
          | .bool true => out ++ [.str kv.1]
          | .num q =>
            if q > 0 then out ++ [.str (kv.1 ++ " (" ++ jsNumRender q ++ ")")] else out
          | .str s => if s.jsTrim != "" then out ++ [.str s.jsTrim] else out
          | .obj f2 =>
            let nm := Json.getField (.obj f2) "name"
            let tp := Json.getField (.obj f2) "tipo"
            if nm.truthy || tp.truthy then
              out ++ [.str (jsToString (if nm.truthy then nm else tp))]
            else out
          | _ => out) []
    | _ => []

/-- farms.tasks.js `firstNonEmptyList(...candidates)`. -/
def firstNonEmptyList (cands : List Json) : List Json :=
  match cands.find? (fun c => !(listFromUnknown c).isEmpty) with
  | some c => listFromUnknown c
  | none => []

/-- farms.tasks.js `cleanArr`. -/
def cleanArr (arr : List Json) : List String :=
  ((arr.map (fun x => (jsStringOrEmpty x).jsTrim)).filter (fun s => s != "")).take 12

structure Components where
  crops : List String
  animals : List String
  other : List String

/-- farms.tasks.js `extractComponents(components)`. -/
def extractComponents (components : Json) : Components :=
  let c :=
    match components with
    | .obj fs => Json.obj fs
    | .arr xs => Json.arr xs
    | _ => Json.obj []
  let crops := firstNonEmptyList [c.getField "cultivos", c.getField "cultivo",
    c.getField "crops", c.getField "crop", c.getField "plantas", c.getField "planta"]
  let animals := firstNonEmptyList [c.getField "animales", c.getField "animal",
    c.getField "animals", c.getField "animalList", c.getField "ganado"]
  let other :=
    if crops.isEmpty && animals.isEmpty then listFromUnknown c else []
  ⟨cleanArr crops, cleanArr animals, cleanArr other⟩

/-- The trimmed zone names (`zoneNames` of the handler). -/
def zoneNamesOf (zones : List MapZone) : List String :=
  (zones.map (fun z =>
    match z.name with
    | some s => if isNonEmptyStr s then s.jsTrim else ""
    | none => "")).filter (fun s => s != "")

/-- The component-driven candidates, in the push order of the handler. -/
def zoneCandidates (tasks : List Task) (now : DateTime) (zones : List MapZone) :
    List (Option Sug) :=
  let todayStr := toYYYYMMDD (todayUtcNoon now)
  (zones.map (fun z =>
    let zoneName :=
      match z.name with
      | some s => if isNonEmptyStr s then s.jsTrim else ""
      | none => ""
    if zoneName == "" then ([] : List (Option Sug))
    else
      let comps := extractComponents z.components
      (comps.crops.map (fun crop =>
        if !hasSimilarActiveTask tasks zoneName ["abonar", "fertiliz", crop] then
          some (Sug.mk (("crop_" ++ zoneName ++ "_" ++ crop).take 180)
            "ZONE_COMPONENT_CROP" "info" "Acción recomendada para cultivo"
            ("Zona \"" ++ zoneName ++ "\": revisar y planificar labores para el cultivo (" ++ crop ++ ").")
            (some zoneName)
            (some (ActionPayload.mk ("Revisión de cultivo (" ++ crop ++ ")") zoneName
              "Mantenimiento" "Media" todayStr todayStr "Pendiente" "")))
        else none))
      ++ (comps.animals.map (fun animal =>
        if !hasSimilarActiveTask tasks zoneName ["aliment", "agua", animal] then
          some (Sug.mk (("animal_feed_" ++ zoneName ++ "_" ++ animal).take 180)
            "ZONE_COMPONENT_ANIMAL_FEED" "info" "Rutina de animales"
            ("Zona \"" ++ zoneName ++ "\": revisar agua y alimentación para (" ++ animal ++ ").")
            (some zoneName)
            (some (ActionPayload.mk ("Revisar agua/alimento (" ++ animal ++ ")") zoneName
              "Alimentación" "Media" todayStr todayStr "Pendiente" "")))
        else none))
      ++ (if comps.crops.isEmpty && comps.animals.isEmpty && !comps.other.isEmpty then
          [if !hasSimilarActiveTask tasks zoneName ["inspeccion", "revision"] then
            some (Sug.mk (("zone_other_" ++ zoneName).take 180)
              "ZONE_COMPONENT_OTHER" "info" "Inspección por componentes"
              ("Zona \"" ++ zoneName ++ "\": hay componentes registrados. Recomendación: inspección preventiva y actualización de tareas.")
              (some zoneName)
              (some (ActionPayload.mk ("Inspección preventiva (" ++ zoneName ++ ")") zoneName
                "Mantenimiento" "Media" todayStr todayStr "Pendiente" "")))
          else none]
        else []))).flatten

/-- The DUE_SOON rule applied to one task.  (`t.due` is a non-null
`Date`, hence always truthy; `t.start || dueDate` likewise resolves to
`t.start`.) -/
def dueSoonCand (now : DateTime) (t : Task) : Option Sug :=
  let noon := todayUtcNoon now
  if t.title == "" then none
  else if t.status == "Completada" then none
  else
    let diffDays := jsCeilDiv (t.due.toMillis - noon.toMillis) MS_DAY
    if 0 ≤ diffDays ∧ diffDays ≤ 2 then
      some (Sug.mk ("due_soon_" ++ t.id) "DUE_SOON"
        (if diffDays == 0 then "alert" else "warning")
        (if diffDays == 0 then "Vence hoy" else "Vence pronto")
        (if diffDays == 0 then "La tarea \"" ++ t.title ++ "\" vence hoy."
          else "La tarea \"" ++ t.title ++ "\" vence en " ++ toString diffDays ++ " día(s).")
        (jsOrNull t.zone)
        (some (ActionPayload.mk ("Seguimiento: " ++ t.title)
          (match t.zone with | some z => z | none => "")
          (if t.type == "" then "Mantenimiento" else t.type)
          "Alta" (toYYYYMMDD t.start) (toYYYYMMDD t.due) "Pendiente"
          (match t.owner with | some o => o | none => ""))))
    else none

/-- The ZONE_NO_ACTIVE_TASKS rule applied to one zone name. -/
def zoneEmptyCand (tasks : List Task) (now : DateTime) (zn : String) : Option Sug :=
  let todayStr := toYYYYMMDD (todayUtcNoon now)
  let hasActive := tasks.any (fun t =>
    (match t.zone with | some z => z | none => "").jsTrim == zn
      && t.status != "Completada")
  if hasActive then none
  else
    some (Sug.mk ("zone_empty_" ++ zn) "ZONE_NO_ACTIVE_TASKS" "info"
      "Zona sin tareas activas"
      ("La zona \"" ++ zn ++ "\" no tiene tareas activas.") (some zn)
      (some (ActionPayload.mk ("Inspección preventiva - " ++ zn) zn
        "Mantenimiento" "Media" todayStr todayStr "Pendiente" "")))

/-- The TOO_MANY_PENDING rule. -/
def pendingCand (tasks : List Task) : Option Sug :=
  let pendingCount := (tasks.filter (fun t => t.status == "Pendiente")).length
  if pendingCount ≥ 5 then
    some (Sug.mk ("too_many_pending_" ++ toString pendingCount) "TOO_MANY_PENDING"
      "warning" "Carga alta de pendientes"
      ("Tenés " ++ toString pendingCount ++
        " tareas en estado \"Pendiente\". Considerá priorizar o dividir trabajo.")
      none none)
  else none

/-- The OVERDUE rule applied to one task. -/
def overdueCand (now : DateTime) (t : Task) : Option Sug :=
  let noon := todayUtcNoon now
  if t.title == "" then none
  else if t.status == "Completada" then none
  else
    let diffDays := jsFloorDiv (noon.toMillis - t.due.toMillis) MS_DAY
    if 1 ≤ diffDays then
      some (Sug.mk ("overdue_" ++ t.id) "OVERDUE" "alert" "Tarea atrasada"
        ("La tarea \"" ++ t.title ++ "\" está atrasada por " ++ toString diffDays ++ " día(s).")
        (jsOrNull t.zone)
        (some (ActionPayload.mk ("Reprogramar: " ++ t.title)
          (match t.zone with | some z => z | none => "")
          (if t.type == "" then "Mantenimiento" else t.type)
          "Alta" (toYYYYMMDD t.start) (toYYYYMMDD noon) "Pendiente"
          (match t.owner with | some o => o | none => ""))))
    else none

/-- All guarded candidates, in the exact push order of the handler (the
guards never read the push state, so running the deduplicating push over
this list is the same computation as the source loops). -/
def allCandidates (tasks : List Task) (zones : List MapZone) (now : DateTime) :
    List (Option Sug) :=
  zoneCandidates tasks now zones
    ++ tasks.map (dueSoonCand now)
    ++ (zoneNamesOf zones).map (zoneEmptyCand tasks now)
    ++ [pendingCand tasks]
    ++ tasks.map (overdueCand now)

/-- The suggestion list of GET /api/farms/:id/tasks/suggestions. -/
def computeSuggestions (tasks : List Task) (zones : List MapZone)
    (now : DateTime) : List Sug :=
  (pushAll ⟨[], []⟩ (allCandidates tasks zones now)).out

/-- GET /api/farms/:id/tasks/suggestions. -/
def getTaskSuggestions (db : DB) (userId farmId : String) (now : DateTime) : HRes :=
  if !looksLikeId farmId then ⟨400, .err "farmId inválido.", db⟩
  else
    match assertFarmOwner db farmId userId with
    | none => ⟨403, .err "Sin acceso a esa finca.", db⟩
    | some _ =>
      ⟨200, .sugList (computeSuggestions (tasksOf db farmId) (zonesOf db farmId) now), db⟩

/-! ## Zones report (GET /api/farms/:id/zones/report) -/

/-- JS `Date#toString` of a UTC instant on a server running in UTC
(the comparison key of the active-task sort of the report;
`localeCompare` on these ASCII strings is modelled as code-point
order). -/
def jsDateToString (t : DateTime) : String :=
  let dayIdx := ((daysFromCivil t.year t.month t.day + 4).emod 7).toNat
  let wd := ["Sun", "Mon", "Tue", "Wed", "Thu", "Fri", "Sat"].getD dayIdx "Sun"
  let mo := ["Jan", "Feb", "Mar", "Apr", "May", "Jun", "Jul", "Aug", "Sep", "Oct",
    "Nov", "Dec"].getD (t.month - 1).toNat "Jan"
  let hh := t.msOfDay.ediv 3600000
  let mi := (t.msOfDay.ediv 60000).emod 60
  let ss := (t.msOfDay.ediv 1000).emod 60
  wd ++ " " ++ mo ++ " " ++ padNum 2 t.day ++ " " ++ toString t.year ++ " " ++
    padNum 2 hh ++ ":" ++ padNum 2 mi ++ ":" ++ padNum 2 ss ++
    " GMT+0000 (Coordinated Universal Time)"

/-- GET /api/farms/:id/zones/report.  (`Object.keys` of an array value is
modelled as the empty list; no claim touches it.) -/
def getZonesReport (db : DB) (userId farmId : String) : HRes :=
  if !looksLikeId farmId then ⟨400, .err "farmId inválido.", db⟩
  else
    match assertFarmOwner db farmId userId with
    | none => ⟨403, .err "Sin acceso a esa finca.", db⟩
    | some farm =>
      let zones := (db.zones.filter (fun z => z.farmId == farmId)).mergeSort
        (fun a b => a.createdAt ≤ b.createdAt)
      let tasks := db.tasks.filter (fun t => t.farmId == farmId)
      let tasksActive := tasks.filter (fun t => t.status != "Completada")
      let report := zones.map (fun z =>
        let zoneName :=
          match z.name with
          | some s => if isNonEmptyStr s then s.jsTrim else ""
          | none => ""
        let zn := normalizeText zoneName
        let zoneTasks := tasksActive.filter (fun t =>
          normalizeText (match t.zone with | some zz => zz | none => "") == zn)
        let isObjLike := match z.components with
          | .obj _ => true
          | .arr _ => true
          | _ => false
        let c := if isObjLike then z.components else .obj []
        let hasAnimals := (c.getField "animales").truthy || (c.getField "animal").truthy
          || (c.getField "animals").truthy || (c.getField "ganado").truthy
        let hasCrops := (c.getField "cultivos").truthy || (c.getField "cultivo").truthy
          || (c.getField "crops").truthy || (c.getField "plantas").truthy
        let keyList := (match c with
          | .obj fs => fs.map (fun (p : String × Json) => p.1)
          | _ => ([] : List String)).take 30
        { id := z.id, name := zoneName, updatedAt := z.updatedAt,
          createdAt := z.createdAt, components := c, hasAnimals := hasAnimals,
          hasCrops := hasCrops, keys := keyList,
          activeTasksCount := zoneTasks.length,
          activeTasks := (zoneTasks.mergeSort (fun a b =>
            jsDateToString a.due ≤ jsDateToString b.due)).take 12 } )
      ⟨200, .zonesReportData ⟨farm.id, farm.name, zones.length,
        tasksActive.length, report⟩, db⟩

/-! ## Cascade delete (schema semantics) -/

/-- The `ON DELETE CASCADE` semantics declared by the migrations for
every child table referencing `Farm` (`MapPoint`, `MapLine`, `MapZone`,
`Task`, `FinanceMovement`, `Asset`): deleting a Farm row removes every
child row whose `farmId` references it. -/
def deleteFarmCascade (db : DB) (farmId : String) : DB :=
  { db with
    farms := db.farms.filter (fun f => !(f.id == farmId)),
    points := db.points.filter (fun r => !(r.farmId == farmId)),
    lines := db.lines.filter (fun r => !(r.farmId == farmId)),
    zones := db.zones.filter (fun r => !(r.farmId == farmId)),
    tasks := db.tasks.filter (fun r => !(r.farmId == farmId)),
    movements := db.movements.filter (fun r => !(r.farmId == farmId)),
    assets := db.assets.filter (fun r => !(r.farmId == farmId)) }

/-! ## All farm-scoped endpoints -/

/-- The farm-scoped endpoints (map load/save, tasks, task suggestions,
finance movements, assets, insights, zone report), with the auxiliary
route parameters and request bodies they carry. -/
inductive Endpoint where
  | getMapE
  | putMapE (body : Json)
  | getTasksE
  | taskSuggestionsE
  | postTaskE (body : Json)
  | putTaskE (taskId : String) (body : Json)
  | deleteTaskE (taskId : String)
  | getMovementsE
  | postMovementE (body : Json)
  | putMovementE (movementId : String) (body : Json)
  | deleteMovementE (movementId : String)
  | getAssetsE
  | postAssetE (body : Json)
  | putAssetE (assetId : String) (body : Json)
  | deleteAssetE (assetId : String)
  | insightsE
  | zonesReportE

/-- Route a request to its handler. -/
def dispatch (e : Endpoint) (db : DB) (userId farmId : String) (now : DateTime) : HRes :=
  match e with
  | .getMapE => getMap db userId farmId
  | .putMapE body => putMap db userId farmId body now
  | .getTasksE => getTasks db userId farmId
  | .taskSuggestionsE => getTaskSuggestions db userId farmId now
  | .postTaskE body => postTask db userId farmId body now
  | .putTaskE taskId body => putTask db userId farmId taskId body now
  | .deleteTaskE taskId => deleteTask db userId farmId taskId
  | .getMovementsE => getMovements db userId farmId
  | .postMovementE body => postMovement db userId farmId body now
  | .putMovementE movementId body => putMovement db userId farmId movementId body now
  | .deleteMovementE movementId => deleteMovement db userId farmId movementId
  | .getAssetsE => getAssets db userId farmId
  | .postAssetE body => postAsset db userId farmId body now
  | .putAssetE assetId body => putAsset db userId farmId assetId body now
  | .deleteAssetE assetId => deleteAsset db userId farmId assetId
  | .insightsE => getInsights db userId farmId now
  | .zonesReportE => getZonesReport db userId farmId

/-- The id-shape guard each endpoint applies before its ownership
check. -/
def validIds (e : Endpoint) (farmId : String) : Bool :=
  match e with
  | .putTaskE taskId _ => looksLikeId farmId && looksLikeId taskId
  | .deleteTaskE taskId => looksLikeId farmId && looksLikeId taskId
  | .putMovementE movementId _ => looksLikeId farmId && looksLikeId movementId
  | .deleteMovementE movementId => looksLikeId farmId && looksLikeId movementId
  | .putAssetE assetId _ => looksLikeId farmId && looksLikeId assetId
  | .deleteAssetE assetId => looksLikeId farmId && looksLikeId assetId
  | _ => looksLikeId farmId

/-- Referential integrity of the store: every child row references an
existing Farm row. -/
def refIntact (db : DB) : Prop :=
  (∀ r ∈ db.points, ∃ f ∈ db.farms, f.id = r.farmId) ∧
  (∀ r ∈ db.lines, ∃ f ∈ db.farms, f.id = r.farmId) ∧
  (∀ r ∈ db.zones, ∃ f ∈ db.farms, f.id = r.farmId) ∧
  (∀ r ∈ db.tasks, ∃ f ∈ db.farms, f.id = r.farmId) ∧
  (∀ r ∈ db.movements, ∃ f ∈ db.farms, f.id = r.farmId) ∧
  (∀ r ∈ db.assets, ∃ f ∈ db.farms, f.id = r.farmId)

/-- A concrete store with two farms and children of both, used to
exercise the cascade-delete theorem. -/
def cascadeExDb : DB :=
  { farms := [⟨"farm0001", "alice001", "Mi finca", .null, .null, 0, 0⟩,
      ⟨"farm0002", "bob00001", "Otra finca", .null, .null, 0, 0⟩],
    points := [⟨"point001", "farm0001", some "Punto", .null, 0, 0⟩,
      ⟨"point002", "farm0002", some "Punto", .null, 0, 0⟩],
    lines := [⟨"line0001", "farm0001", some "Línea", .null, 0, 0⟩],
    zones := [⟨"zone0001", "farm0001", some "Zona", .null, .null, 0, 0⟩],
    tasks := [⟨"task0001", "farm0001", "Regar", none, "Mantenimiento", "Media",
      ⟨2026, 10, 11, NOON_MS⟩, ⟨2026, 10, 11, NOON_MS⟩, "Pendiente", none, 0, 0⟩],
    movements := [⟨"mvst0001", "farm0001", ⟨2026, 10, 11, NOON_MS⟩, "Urea", "General",
      "Gasto", 5, none, none, 0, 0⟩],
    assets := [⟨"asset001", "farm0002", "Bomba", "Equipos", 100,
      ⟨2026, 10, 11, NOON_MS⟩, 5, 0, 0, 0⟩],
    nextId := 0 }

/-- Per-user uniqueness of farm names as a property of the Farm table. -/
def farmNamesUnique (farms : List Farm) : Prop :=
  farms.Pairwise (fun f g => f.userId = g.userId → f.name ≠ g.name)

/-- A store in which bob already owns a farm named "Mi finca". -/
def c3ExDb : DB :=
  { farms := [⟨"farm0001", "bob00001", "Mi finca", .null, .null, 0, 0⟩],
    points := [], lines := [], zones := [], tasks := [], movements := [],
    assets := [], nextId := 0 }

/-- A shared concrete store used by the witnesses: alice owns farm0001
with one task, one movement, one asset and a map point; bob owns
farm0002. -/
def wDb : DB :=
  { farms := [⟨"farm0001", "alice001", "Mi finca", .null, .null, 0, 0⟩,
      ⟨"farm0002", "bob00001", "Otra finca", .null, .null, 0, 0⟩],
    points := [⟨"point001", "farm0001", some "Punto", .null, 0, 0⟩,
      ⟨"point002", "farm0002", some "Punto", .null, 0, 0⟩],
    lines := [],
    zones := [],
    tasks := [⟨"task0001", "farm0001", "Regar", none, "Mantenimiento", "Media",
      ⟨2026, 10, 10, NOON_MS⟩, ⟨2026, 10, 10, NOON_MS⟩, "Pendiente", none, 0, 0⟩],
    movements := [⟨"mvst0001", "farm0001", ⟨2026, 10, 1, NOON_MS⟩, "Urea", "Fertilizantes",
      "Gasto", 5, none, none, 0, 0⟩],
    assets := [],
    nextId := 0 }

/-- The `assertFarmOwner` projection of alice on farm0001 in `wDb`. -/
def wFarmSel : FarmSel := ⟨"farm0001", "Mi finca", .null, .null⟩

/-- A request instant used by the witnesses. -/
def wNow : DateTime := ⟨2026, 10, 11, 50000000⟩

/-- A movement body whose `type` field is present but invalid. -/
def wBadTypeBody : Json :=
  .obj [("concept", .str "Algo"), ("amount", .num 5), ("type", .str "Venta")]

/-- The movement stored in `wDb`. -/
def wMov : FinanceMovement :=
  ⟨"mvst0001", "farm0001", ⟨2026, 10, 1, NOON_MS⟩, "Urea", "Fertilizantes",
    "Gasto", 5, none, none, 0, 0⟩

/-- The task stored in `wDb`. -/
def wTask : Task :=
  ⟨"task0001", "farm0001", "Regar", none, "Mantenimiento", "Media",
    ⟨2026, 10, 10, NOON_MS⟩, ⟨2026, 10, 10, NOON_MS⟩, "Pendiente", none, 0, 0⟩

/-- A task body whose start date is after its due date. -/
def wBadDatesBody : Json :=
  .obj [("title", .str "Algo"), ("start", .str "2026-10-12"),
    ("due", .str "2026-10-10")]

/-- `wDb` with an extra movement of bob's farm0002: farm0001's slice of
the store is unchanged. -/
def wDb2 : DB :=
  { wDb with movements := wDb.movements ++
      [⟨"mvst0002", "farm0002", ⟨2026, 10, 2, NOON_MS⟩, "Cal", "General",
        "Gasto", 7, none, none, 0, 0⟩] }

/-- A task due today (relative to `wNow`). -/
def wT1 : Task :=
  ⟨"task0011", "farm0001", "Regar", none, "Mantenimiento", "Media",
    ⟨2026, 10, 11, NOON_MS⟩, ⟨2026, 10, 11, NOON_MS⟩, "Pendiente", none, 0, 0⟩

/-- A second task with the same title, zone and due date as `wT1` but a
different id. -/
def wT2 : Task :=
  ⟨"task0012", "farm0001", "Regar", none, "Mantenimiento", "Media",
    ⟨2026, 10, 11, NOON_MS⟩, ⟨2026, 10, 11, NOON_MS⟩, "Pendiente", none, 0, 0⟩

/-- Two distinct pending tasks whose DUE_SOON suggestions share the dedup
key. -/
def wDupTasks : List Task := [wT1, wT2]


/-- The health-score rule list as the specification words it: 50 adjusted
by the fixed rules over the current month's movements, then clamped to
[0, 100].  Written from the claim, to be compared with `healthScoreOf`. -/
def healthScoreClaim (movements : List FinanceMovement) (now : DateTime) : Int :=
  let monthMovs := monthMovsOf movements now
  let ingresos := ((monthMovs.filter (fun m => m.type == "Ingreso")).map
    (fun m => m.amount)).sum
  let gastos := ((monthMovs.filter (fun m => m.type == "Gasto")).map
    (fun m => m.amount)).sum
  let balance := ingresos - gastos
  let margen : ℚ := if 0 < ingresos then 100 * balance / ingresos else 0
  let prevMovs := prevMovsOf movements now
  let prevIngresos := ((prevMovs.filter (fun m => m.type == "Ingreso")).map
    (fun m => m.amount)).sum
  let prevGastos := ((prevMovs.filter (fun m => m.type == "Gasto")).map
    (fun m => m.amount)).sum
  let variationBalance := balance - (prevIngresos - prevGastos)
  let tooGeneral := (monthMovs.filter (fun m => m.category == "General")).length
  let missing := (monthMovs.filter (fun m => !isNonEmptyStr m.category)).length
  let dups := dupCountOf monthMovs
  let invoiceMissing := (monthMovs.filter (fun m =>
    m.type == "Gasto" && !(match m.invoiceNumber with
      | some s => isNonEmptyStr s
      | none => false))).length
  max 0 (min 100 (50
    + (if balance > 0 then 15 else 0)
    + (if ingresos > 0 ∧ margen ≥ 20 then 10 else 0)
    - (if ingresos > 0 ∧ margen < 0 then 15 else 0)
    + (if variationBalance > 0 then 8 else 0)
    - (if tooGeneral > 3 then 8 else 0)
    - (if missing > 0 then 6 else 0)
    - (if dups > 0 then 6 else 0)
    - (if invoiceMissing > 2 then 6 else 0)))

/-! ## Shared lemmas -/

theorem assertFarmOwner_eq_none {db : DB} {farmId userId : String}
    (h : ∀ f ∈ db.farms, ¬(f.id = farmId ∧ f.userId = userId)) :
    assertFarmOwner db farmId userId = none := by
  have hf : db.farms.find? (fun f => f.id == farmId && f.userId == userId) = none := by
    apply List.find?_eq_none.mpr
    intro f hfmem
    simp only [Bool.and_eq_true, beq_iff_eq]
    exact fun hc => h f hfmem hc
  simp [assertFarmOwner, hf]

/-! ## C4: cascade delete -/

/-- C4: deleting a Farm row cascades per the schema: every MapPoint,
MapLine, MapZone, Task, FinanceMovement and Asset of that farm is
removed, rows of other farms survive, and referential integrity is
preserved, so no child row ever references a non-existent Farm. -/
theorem farm_cascade_delete (db : DB) (farmId : String) :
    ((∀ r ∈ (deleteFarmCascade db farmId).points, r.farmId ≠ farmId) ∧
     (∀ r ∈ (deleteFarmCascade db farmId).lines, r.farmId ≠ farmId) ∧
     (∀ r ∈ (deleteFarmCascade db farmId).zones, r.farmId ≠ farmId) ∧
     (∀ r ∈ (deleteFarmCascade db farmId).tasks, r.farmId ≠ farmId) ∧
     (∀ r ∈ (deleteFarmCascade db farmId).movements, r.farmId ≠ farmId) ∧
     (∀ r ∈ (deleteFarmCascade db farmId).assets, r.farmId ≠ farmId) ∧
     (∀ f ∈ (deleteFarmCascade db farmId).farms, f.id ≠ farmId) ∧
     (∀ r ∈ db.points, r.farmId ≠ farmId → r ∈ (deleteFarmCascade db farmId).points) ∧
     (∀ r ∈ db.lines, r.farmId ≠ farmId → r ∈ (deleteFarmCascade db farmId).lines) ∧
     (∀ r ∈ db.zones, r.farmId ≠ farmId → r ∈ (deleteFarmCascade db farmId).zones) ∧
     (∀ r ∈ db.tasks, r.farmId ≠ farmId → r ∈ (deleteFarmCascade db farmId).tasks) ∧
     (∀ r ∈ db.movements, r.farmId ≠ farmId → r ∈ (deleteFarmCascade db farmId).movements) ∧
     (∀ r ∈ db.assets, r.farmId ≠ farmId → r ∈ (deleteFarmCascade db farmId).assets)) ∧
    (refIntact db → refIntact (deleteFarmCascade db farmId)) := by
  constructor
  · simp only [deleteFarmCascade, List.mem_filter, Bool.not_eq_true',
      beq_eq_false_iff_ne, ne_eq]
    exact ⟨fun r h => h.2, fun r h => h.2, fun r h => h.2, fun r h => h.2,
      fun r h => h.2, fun r h => h.2, fun f h => h.2,
      fun r h hne => ⟨h, hne⟩, fun r h hne => ⟨h, hne⟩, fun r h hne => ⟨h, hne⟩,
      fun r h hne => ⟨h, hne⟩, fun r h hne => ⟨h, hne⟩, fun r h hne => ⟨h, hne⟩⟩
  · intro h
    obtain ⟨h1, h2, h3, h4, h5, h6⟩ := h
    have step : ∀ {α : Type} (l : List α) (farmOf : α → String)
        (hl : ∀ r ∈ l, ∃ f ∈ db.farms, f.id = farmOf r),
        ∀ r ∈ l.filter (fun r => !(farmOf r == farmId)),
          ∃ f ∈ db.farms.filter (fun f => !(f.id == farmId)), f.id = farmOf r := by
      intro α l farmOf hl r hr
      rw [List.mem_filter] at hr
      obtain ⟨hmem, hne⟩ := hr
      obtain ⟨f, hfmem, hfid⟩ := hl r hmem
      refine ⟨f, ?_, hfid⟩
      rw [List.mem_filter]
      refine ⟨hfmem, ?_⟩
      simp only [Bool.not_eq_true', beq_eq_false_iff_ne, ne_eq] at hne ⊢
      rw [hfid]
      exact hne
    exact ⟨step db.points (fun r => r.farmId) h1, step db.lines (fun r => r.farmId) h2,
      step db.zones (fun r => r.farmId) h3, step db.tasks (fun r => r.farmId) h4,
      step db.movements (fun r => r.farmId) h5, step db.assets (fun r => r.farmId) h6⟩

theorem farm_cascade_delete_witness :
    refIntact cascadeExDb ∧ refIntact (deleteFarmCascade cascadeExDb "farm0001") := by
  refine ⟨?_, (farm_cascade_delete cascadeExDb "farm0001").2 ?_⟩ <;>
    · unfold refIntact
      decide

/-! ## C3: farm names unique per user -/

/-- C3: POST /api/farms answers 409 "Ya existe una finca con ese nombre."
and creates nothing when the user already has a farm with the resulting
name; it creates the farm when this user has no farm of that name (in
particular a name already used by a different user is fine); and the
per-user uniqueness invariant of the `Farm_userId_name_key` index is
preserved. -/
theorem farm_name_unique (db : DB) (userId : String) (body : Json) (now : DateTime) :
    ((∃ f ∈ db.farms, f.userId = userId ∧
        f.name = cleanName (body.getField "name") "Mi finca") →
      (createFarm db userId body now).status = 409 ∧
      (createFarm db userId body now).resp = .err "Ya existe una finca con ese nombre." ∧
      (createFarm db userId body now).db = db) ∧
    ((∀ f ∈ db.farms, f.userId = userId →
        f.name ≠ cleanName (body.getField "name") "Mi finca") →
      (createFarm db userId body now).status = 201 ∧
      ∃ g, (createFarm db userId body now).db.farms = db.farms ++ [g] ∧
        g.userId = userId ∧ g.name = cleanName (body.getField "name") "Mi finca") ∧
    (farmNamesUnique db.farms → farmNamesUnique (createFarm db userId body now).db.farms) := by
  by_cases hdup : (db.farms.any (fun f =>
      f.userId == userId && f.name == cleanName (body.getField "name") "Mi finca")) = true
  · refine ⟨fun _ => ?_, fun hnone => ?_, fun hu => ?_⟩
    · simp [createFarm, hdup]
    · exfalso
      rw [List.any_eq_true] at hdup
      obtain ⟨f, hfmem, hf⟩ := hdup
      simp only [Bool.and_eq_true, beq_iff_eq] at hf
      exact hnone f hfmem hf.1 hf.2
    · simpa [createFarm, hdup] using hu
  · rw [Bool.not_eq_true] at hdup
    have hnone : ∀ f ∈ db.farms, f.userId = userId →
        f.name ≠ cleanName (body.getField "name") "Mi finca" := by
      rw [List.any_eq_false] at hdup
      intro f hfmem hfu hfn
      exact hdup f hfmem (by simp [hfu, hfn])
    refine ⟨fun hex => ?_, fun _ => ?_, fun hu => ?_⟩
    · exfalso
      obtain ⟨f, hfmem, hfu, hfn⟩ := hex
      exact hnone f hfmem hfu hfn
    · constructor
      · simp [createFarm, hdup]
      · simp only [createFarm, hdup, Bool.false_eq_true, if_false]
        exact ⟨_, rfl, rfl, rfl⟩
    · simp only [createFarm, hdup, Bool.false_eq_true, if_false]
      unfold farmNamesUnique at hu ⊢
      rw [List.pairwise_append]
      refine ⟨hu, List.pairwise_singleton _ _, ?_⟩
      intro a hamem b hbmem hab
      simp only [List.mem_singleton] at hbmem
      subst hbmem
      exact hnone a hamem hab

theorem farm_name_unique_witness :
    (createFarm c3ExDb "bob00001" (Json.obj []) ⟨2026, 10, 11, 0⟩).status = 409 ∧
    (createFarm c3ExDb "alice001" (Json.obj []) ⟨2026, 10, 11, 0⟩).status = 201 :=
  ⟨((farm_name_unique c3ExDb "bob00001" (Json.obj []) ⟨2026, 10, 11, 0⟩).1
      ⟨⟨"farm0001", "bob00001", "Mi finca", .null, .null, 0, 0⟩,
        List.mem_singleton.mpr rfl, rfl, by decide⟩).1,
    (((farm_name_unique c3ExDb "alice001" (Json.obj []) ⟨2026, 10, 11, 0⟩).2.1)
      (by decide)).1⟩

theorem normalizeType_char (v : Json) (t : String) :
    normalizeType v = some t ↔
      ∃ s, v = .str s ∧ s.jsTrim = t ∧ (t = "Ingreso" ∨ t = "Gasto") := by
  cases v with
  | str s =>
    simp only [normalizeType, Json.str.injEq, exists_eq_left']
    constructor
    · intro h
      split at h
      · rename_i hI
        rw [beq_iff_eq] at hI
        injection h with h
        exact ⟨by rw [hI]; exact h, Or.inl h.symm⟩
      · split at h
        · rename_i hG
          rw [beq_iff_eq] at hG
          injection h with h
          exact ⟨by rw [hG]; exact h, Or.inr h.symm⟩
        · cases h
    · rintro ⟨ht, hv⟩
      rcases hv with rfl | rfl
      · rw [if_pos (by simp [ht] : (s.jsTrim == "Ingreso") = true)]
      · rw [if_neg (by simp [ht] : ¬((s.jsTrim == "Ingreso") = true)),
          if_pos (by simp [ht] : (s.jsTrim == "Gasto") = true)]
  | undef => simp [normalizeType]
  | null => simp [normalizeType]
  | bool b => simp [normalizeType]
  | num q => simp [normalizeType]
  | arr xs => simp [normalizeType]
  | obj fs => simp [normalizeType]

theorem normalizeType_values {v : Json} {t : String}
    (h : normalizeType v = some t) : t = "Ingreso" ∨ t = "Gasto" := by
  rcases (normalizeType_char v t).mp h with ⟨s, _, _, ht⟩
  exact ht

set_option maxRecDepth 16384 in
theorem postMovementFields_type_error (body : Json) (now : DateTime)
    (hnone : normalizeType (body.getField "type") = none) :
    ∀ f, postMovementFields body now ≠ .ok f := by
  intro f h
  simp only [postMovementFields, hnone] at h
  repeat' split at h
  all_goals cases h

set_option maxRecDepth 16384 in
theorem postMovementFields_type_ok (body : Json) (now : DateTime)
    (f : MovementFields) (h : postMovementFields body now = .ok f) :
    f.type = "Ingreso" ∨ f.type = "Gasto" := by
  by_cases hc : isNonEmptyString (body.getField "concept") = true
  · simp only [postMovementFields] at h
    rw [if_pos hc] at h
    split at h
    · cases h
    · split at h
      · cases h
      · rename_i ft hft
        split at h
        · cases h
        · injection h with h
          subst h
          exact normalizeType_values hft
  · rw [Bool.not_eq_true] at hc
    simp [postMovementFields, hc] at h

set_option maxRecDepth 16384 in
theorem putMovementFields_type_error (existing : FinanceMovement) (body : Json)
    (hdef : (body.getField "type").isUndef = false)
    (hnone : normalizeType (body.getField "type") = none) :
    ∀ m, putMovementFields existing body ≠ .ok m := by
  intro m h
  simp only [putMovementFields, hdef, hnone, Bool.false_eq_true, if_false] at h
  repeat' split at h
  all_goals cases h

set_option maxRecDepth 16384 in
theorem putMovementFields_type_ok (existing : FinanceMovement) (body : Json)
    (m : FinanceMovement) (h : putMovementFields existing body = .ok m) :
    m.type = existing.type ∨ m.type = "Ingreso" ∨ m.type = "Gasto" := by
  simp only [putMovementFields] at h
  split at h
  · cases h
  · split at h
    · cases h
    · rename_i newType htype
      split at h
      · cases h
      · split at h
        · cases h
        · injection h with h
          subst h
          split at htype
          · injection htype with htype
            subst htype
            exact Or.inl rfl
          · split at htype
            · cases htype
            · rename_i ft hft
              injection htype with htype
              subst htype
              exact Or.inr (normalizeType_values hft)

set_option maxRecDepth 16384 in
/-- C2: a movement type value is accepted exactly when it is a string
trimming to "Ingreso" or "Gasto"; POST and PUT movement requests with any
other present type value are answered 400 with the store unchanged, and
both handlers preserve the invariant that every stored movement has type
"Ingreso" or "Gasto". -/
theorem movement_type_validation (db : DB) (userId farmId movementId : String)
    (body : Json) (now : DateTime) :
    (∀ t, normalizeType (body.getField "type") = some t ↔
      ∃ s, body.getField "type" = .str s ∧ s.jsTrim = t ∧
        (t = "Ingreso" ∨ t = "Gasto")) ∧
    (normalizeType (body.getField "type") = none →
      looksLikeId farmId = true →
      ∀ farm, assertFarmOwner db farmId userId = some farm →
        (postMovement db userId farmId body now).status = 400 ∧
        (postMovement db userId farmId body now).db = db) ∧
    ((body.getField "type").isUndef = false →
      normalizeType (body.getField "type") = none →
      (looksLikeId farmId && looksLikeId movementId) = true →
      ∀ farm, assertFarmOwner db farmId userId = some farm →
      ∀ existing, db.movements.find? (fun m =>
          m.id == movementId && m.farmId == farmId) = some existing →
        (putMovement db userId farmId movementId body now).status = 400 ∧
        (putMovement db userId farmId movementId body now).db = db) ∧
    ((∀ m ∈ db.movements, m.type = "Ingreso" ∨ m.type = "Gasto") →
      (∀ m ∈ (postMovement db userId farmId body now).db.movements,
        m.type = "Ingreso" ∨ m.type = "Gasto") ∧
      (∀ m ∈ (putMovement db userId farmId movementId body now).db.movements,
        m.type = "Ingreso" ∨ m.type = "Gasto")) := by
  refine ⟨fun t => normalizeType_char _ t, ?_, ?_, ?_⟩
  · intro hnone hId farm hOwn
    cases hpf : postMovementFields body now with
    | ok f => exact absurd hpf (postMovementFields_type_error body now hnone f)
    | error e =>
      unfold postMovement
      rw [hOwn, hpf]
      simp [hId]
  · intro hdef hnone hIds farm hOwn existing hEx
    cases hpf : putMovementFields existing body with
    | ok m => exact absurd hpf (putMovementFields_type_error existing body hdef hnone m)
    | error e =>
      unfold putMovement
      rw [hOwn, hEx]
      simp [hIds, hpf]
  · intro hall
    constructor
    · unfold postMovement
      split
      · exact hall
      · split
        · exact hall
        · split
          · exact hall
          · rename_i f hok
            intro m hm
            rcases List.mem_append.mp hm with hm2 | hm2
            · exact hall m hm2
            · rw [List.mem_singleton] at hm2
              subst hm2
              exact postMovementFields_type_ok body now f hok
    · unfold putMovement
      split
      · exact hall
      · split
        · exact hall
        · split
          · exact hall
          · rename_i existing hEx
            split
            · exact hall
            · rename_i m hok
              intro r hr
              rw [List.mem_map] at hr
              obtain ⟨r0, hr0, hrr⟩ := hr
              split at hrr
              · subst hrr
                have hty := putMovementFields_type_ok existing body m hok
                have hexmem : existing ∈ db.movements := List.mem_of_find?_eq_some hEx
                rcases hty with h | h | h
                · rw [show ({ m with updatedAt := now.toMillis } : FinanceMovement).type
                      = m.type from rfl, h]
                  exact hall existing hexmem
                · exact Or.inl h
                · exact Or.inr h
              · subst hrr
                exact hall r0 hr0

/-- Witness for C2: the concrete request `wBadTypeBody` (type "Venta") is
rejected with 400 by both POST and PUT, leaving the store unchanged. -/
theorem movement_type_validation_witness :
    (postMovement wDb "alice001" "farm0001" wBadTypeBody wNow).status = 400 ∧
    (postMovement wDb "alice001" "farm0001" wBadTypeBody wNow).db = wDb ∧
    (putMovement wDb "alice001" "farm0001" "mvst0001" wBadTypeBody wNow).status = 400 ∧
    (putMovement wDb "alice001" "farm0001" "mvst0001" wBadTypeBody wNow).db = wDb := by
  have h := movement_type_validation wDb "alice001" "farm0001" "mvst0001" wBadTypeBody wNow
  have hpost := h.2.1 (by decide) (by decide) wFarmSel (by rfl)
  have hput := h.2.2.1 (by decide) (by decide) (by decide) wFarmSel (by rfl) wMov (by decide)
  exact ⟨hpost.1, hpost.2, hput.1, hput.2⟩


set_option maxRecDepth 16384 in
theorem postTaskFields_ok_le (body : Json) (f : TaskFields)
    (h : postTaskFields body = .ok f) :
    f.start.toMillis ≤ f.due.toMillis ∧
      parseISODateOnlyToUTC (body.getField "start") = some f.start ∧
      parseISODateOnlyToUTC (body.getField "due") = some f.due := by
  simp only [postTaskFields] at h
  split at h
  · cases h
  · split at h
    · cases h
    · rename_i s hs
      split at h
      · cases h
      · rename_i d hd
        split at h
        · cases h
        · rename_i hgt
          injection h with h
          subst h
          exact ⟨le_of_not_lt hgt, hs, hd⟩

set_option maxRecDepth 16384 in
theorem putTaskFields_ok_char (existing : Task) (body : Json) (t : Task)
    (h : putTaskFields existing body = .ok t) :
    t.start.toMillis ≤ t.due.toMillis ∧
      ((body.getField "start").isUndef = true → t.start = existing.start) ∧
      ((body.getField "due").isUndef = true → t.due = existing.due) ∧
      (∀ d, (body.getField "start").isUndef = false →
        parseISODateOnlyToUTC (body.getField "start") = some d → t.start = d) ∧
      (∀ d, (body.getField "due").isUndef = false →
        parseISODateOnlyToUTC (body.getField "due") = some d → t.due = d) := by
  simp only [putTaskFields] at h
  split at h
  · cases h
  · rename_i newTitle hTitle
    split at h
    · cases h
    · rename_i newStart hStart
      split at h
      · cases h
      · rename_i newDue hDue
        split at h
        · cases h
        · rename_i hgt
          injection h with h
          subst h
          refine ⟨le_of_not_lt hgt, ?_, ?_, ?_, ?_⟩
          · intro hu
            rw [if_pos hu] at hStart
            injection hStart with hStart
            subst hStart
            rfl
          · intro hu
            rw [if_pos hu] at hDue
            injection hDue with hDue
            subst hDue
            rfl
          · intro d hu hp
            rw [hu] at hStart
            simp only [Bool.false_eq_true, if_false, hp] at hStart
            injection hStart with hStart
            subst hStart
            rfl
          · intro d hu hp
            rw [hu] at hDue
            simp only [Bool.false_eq_true, if_false, hp] at hDue
            injection hDue with hDue
            subst hDue
            rfl

set_option maxRecDepth 16384 in
/-- C9: POST /tasks rejects with 400 any request whose parsed start is
after its parsed due; PUT /tasks/:taskId rejects with 400, leaving the
store unchanged, whenever the resulting combination of (possibly updated)
start and due has start after due; and both handlers preserve the
invariant that every stored task has start <= due. -/
theorem task_start_le_due (db : DB) (userId farmId taskId : String)
    (body : Json) (now : DateTime) (newS newD : DateTime) :
    (∀ s d, parseISODateOnlyToUTC (body.getField "start") = some s →
      parseISODateOnlyToUTC (body.getField "due") = some d →
      d.toMillis < s.toMillis →
      looksLikeId farmId = true →
      ∀ farm, assertFarmOwner db farmId userId = some farm →
        (postTask db userId farmId body now).status = 400 ∧
        (postTask db userId farmId body now).db = db) ∧
    ((looksLikeId farmId && looksLikeId taskId) = true →
      ∀ farm, assertFarmOwner db farmId userId = some farm →
      ∀ existing, db.tasks.find? (fun t => t.id == taskId && t.farmId == farmId)
          = some existing →
      (((body.getField "start").isUndef = true ∧ newS = existing.start) ∨
        ((body.getField "start").isUndef = false ∧
          parseISODateOnlyToUTC (body.getField "start") = some newS)) →
      (((body.getField "due").isUndef = true ∧ newD = existing.due) ∨
        ((body.getField "due").isUndef = false ∧
          parseISODateOnlyToUTC (body.getField "due") = some newD)) →
      newD.toMillis < newS.toMillis →
        (putTask db userId farmId taskId body now).status = 400 ∧
        (putTask db userId farmId taskId body now).db = db) ∧
    ((∀ t ∈ db.tasks, t.start.toMillis ≤ t.due.toMillis) →
      (∀ t ∈ (postTask db userId farmId body now).db.tasks,
        t.start.toMillis ≤ t.due.toMillis) ∧
      (∀ t ∈ (putTask db userId farmId taskId body now).db.tasks,
        t.start.toMillis ≤ t.due.toMillis)) := by
  refine ⟨?_, ?_, ?_⟩
  · intro s d hps hpd hlt hId farm hOwn
    cases hpf : postTaskFields body with
    | error e =>
      unfold postTask
      rw [hOwn, hpf]
      simp [hId]
    | ok f =>
      exfalso
      obtain ⟨hle, hs, hd⟩ := postTaskFields_ok_le body f hpf
      have h1 : (some f.start : Option DateTime) = some s := hs.symm.trans hps
      have h2 : (some f.due : Option DateTime) = some d := hd.symm.trans hpd
      injection h1 with h1
      injection h2 with h2
      subst h1
      subst h2
      exact absurd hle (not_le.mpr hlt)
  · intro hIds farm hOwn existing hEx hS hD hlt
    cases hpf : putTaskFields existing body with
    | error e =>
      unfold putTask
      rw [hOwn, hEx]
      simp [hIds, hpf]
    | ok t =>
      exfalso
      obtain ⟨hle, hsu, hdu, hss, hds⟩ := putTaskFields_ok_char existing body t hpf
      have hts : t.start = newS := by
        rcases hS with ⟨hu, rfl⟩ | ⟨hu, hp⟩
        · exact hsu hu
        · exact hss newS hu hp
      have htd : t.due = newD := by
        rcases hD with ⟨hu, rfl⟩ | ⟨hu, hp⟩
        · exact hdu hu
        · exact hds newD hu hp
      rw [hts, htd] at hle
      exact absurd hle (not_le.mpr hlt)
  · intro hall
    constructor
    · unfold postTask
      split
      · exact hall
      · split
        · exact hall
        · split
          · exact hall
          · rename_i f hok
            intro t ht
            rcases List.mem_append.mp ht with h2 | h2
            · exact hall t h2
            · rw [List.mem_singleton] at h2
              subst h2
              exact (postTaskFields_ok_le body f hok).1
    · unfold putTask
      split
      · exact hall
      · split
        · exact hall
        · split
          · exact hall
          · rename_i existing hEx
            split
            · exact hall
            · rename_i t hok
              intro r hr
              rw [List.mem_map] at hr
              obtain ⟨r0, hr0, hrr⟩ := hr
              split at hrr
              · subst hrr
                exact (putTaskFields_ok_char existing body t hok).1
              · subst hrr
                exact hall r0 hr0

/-- Witness for C9: the concrete body `wBadDatesBody` (start 2026-10-12,
due 2026-10-10) is rejected with 400 by both POST and PUT, leaving the
store unchanged. -/
theorem task_start_le_due_witness :
    (postTask wDb "alice001" "farm0001" wBadDatesBody wNow).status = 400 ∧
    (postTask wDb "alice001" "farm0001" wBadDatesBody wNow).db = wDb ∧
    (putTask wDb "alice001" "farm0001" "task0001" wBadDatesBody wNow).status = 400 ∧
    (putTask wDb "alice001" "farm0001" "task0001" wBadDatesBody wNow).db = wDb := by
  have h := task_start_le_due wDb "alice001" "farm0001" "task0001" wBadDatesBody wNow
    ⟨2026, 10, 12, NOON_MS⟩ ⟨2026, 10, 10, NOON_MS⟩
  have hpost := h.1 ⟨2026, 10, 12, NOON_MS⟩ ⟨2026, 10, 10, NOON_MS⟩ (by decide)
    (by decide) (by decide) (by decide) wFarmSel (by rfl)
  have hput := h.2.1 (by decide) wFarmSel (by rfl) wTask (by decide)
    (Or.inr ⟨by decide, by decide⟩) (Or.inr ⟨by decide, by decide⟩) (by decide)
  exact ⟨hpost.1, hpost.2, hput.1, hput.2⟩


theorem jsArr_eq_nil (v : Json) (h : ∀ xs, v ≠ .arr xs) : jsArr v = [] := by
  cases v <;> first | rfl | exact absurd rfl (h _)

set_option maxRecDepth 16384 in
/-- C10: PUT /farms/:id/map on an owned farm always answers 200 with
saved counts equal to the lengths of the sanitized (array-or-empty) input
lists, and a body in which none of points/lines/zones is an array deletes
every stored point, line and zone of that farm. -/
theorem put_map_sanitize (db : DB) (userId farmId : String) (body : Json)
    (now : DateTime) (farm : FarmSel)
    (hId : looksLikeId farmId = true)
    (hOwn : assertFarmOwner db farmId userId = some farm) :
    (putMap db userId farmId body now).status = 200 ∧
    (putMap db userId farmId body now).resp =
      .mapSaved (jsArr (body.getField "points")).length
        (jsArr (body.getField "lines")).length
        (jsArr (body.getField "zones")).length ∧
    ((∀ xs, body.getField "points" ≠ .arr xs) →
     (∀ xs, body.getField "lines" ≠ .arr xs) →
     (∀ xs, body.getField "zones" ≠ .arr xs) →
      (putMap db userId farmId body now).resp = .mapSaved 0 0 0 ∧
      (putMap db userId farmId body now).db.points.filter
        (fun r => r.farmId == farmId) = [] ∧
      (putMap db userId farmId body now).db.lines.filter
        (fun r => r.farmId == farmId) = [] ∧
      (putMap db userId farmId body now).db.zones.filter
        (fun r => r.farmId == farmId) = []) := by
  unfold putMap
  rw [hOwn]
  simp only [hId, Bool.not_true, Bool.false_eq_true, if_false]
  refine ⟨trivial, trivial, ?_⟩
  intro hp hl hz
  simp only [jsArr_eq_nil _ hp, jsArr_eq_nil _ hl, jsArr_eq_nil _ hz,
    List.filterMap_nil, List.foldl_nil, List.length_nil]
  refine ⟨?_, ?_, ?_, ?_⟩ <;>
    first
      | trivial
      | (rw [List.filter_eq_nil_iff]
         intro r hr
         rw [List.mem_filter] at hr
         have h2 := hr.2
         simp only [List.contains_nil, Bool.not_false, Bool.and_true] at h2
         simpa using h2)


/-- Witness for C10: the empty body on farm0001 answers 200 with saved
counts 0/0/0 and removes every stored map row of the farm. -/
theorem put_map_sanitize_witness :
    (putMap wDb "alice001" "farm0001" (.obj []) wNow).status = 200 ∧
    (putMap wDb "alice001" "farm0001" (.obj []) wNow).resp = .mapSaved 0 0 0 ∧
    (putMap wDb "alice001" "farm0001" (.obj []) wNow).db.points.filter
      (fun r => r.farmId == "farm0001") = [] := by
  have h := put_map_sanitize wDb "alice001" "farm0001" (.obj []) wNow wFarmSel
    (by decide) (by rfl)
  have h3 := h.2.2 (fun xs hx => nomatch hx) (fun xs hx => nomatch hx)
    (fun xs hx => nomatch hx)
  exact ⟨h.1, h3.1, h3.2.1⟩


set_option maxHeartbeats 1600000 in
set_option maxRecDepth 16384 in
/-- C1 (amended): for every farm-scoped endpoint, once the route ids pass
the id-shape guard, a request by a user who owns no Farm row with the
requested farmId is answered 403 "Sin acceso a esa finca." and the store
is left unchanged. -/
theorem farm_ownership_403 (e : Endpoint) (db : DB) (userId farmId : String)
    (now : DateTime)
    (hIds : validIds e farmId = true)
    (h : ∀ f ∈ db.farms, ¬(f.id = farmId ∧ f.userId = userId)) :
    (dispatch e db userId farmId now).status = 403 ∧
    (dispatch e db userId farmId now).resp = .err "Sin acceso a esa finca." ∧
    (dispatch e db userId farmId now).db = db := by
  have hNone := assertFarmOwner_eq_none h
  cases e <;>
    simp only [dispatch, validIds] at hIds ⊢ <;>
    simp [getMap, putMap, getTasks, getTaskSuggestions, postTask, putTask,
      deleteTask, getMovements, postMovement, putMovement, deleteMovement,
      getAssets, postAsset, putAsset, deleteAsset, getInsights, getZonesReport,
      hIds, hNone]

/-- C1 counterexample: no farm of `wDb` has id "x", yet the map request
for farmId "x" is answered 400 "farmId inválido.", not 403. -/
theorem farm_ownership_403_counterexample :
    (∀ f ∈ wDb.farms, ¬(f.id = "x" ∧ f.userId = "alice001")) ∧
    (getMap wDb "alice001" "x").status = 400 ∧
    (getMap wDb "alice001" "x").status ≠ 403 ∧
    (getMap wDb "alice001" "x").resp = .err "farmId inválido." := by
  refine ⟨by decide, by decide, by decide, rfl⟩

/-- Witness for C1 (amended): bob, who does not own farm0001, gets 403
and the store is unchanged. -/
theorem farm_ownership_403_witness :
    (dispatch .getMapE wDb "bob00001" "farm0001" wNow).status = 403 ∧
    (dispatch .getMapE wDb "bob00001" "farm0001" wNow).resp =
      .err "Sin acceso a esa finca." ∧
    (dispatch .getMapE wDb "bob00001" "farm0001" wNow).db = wDb :=
  farm_ownership_403 .getMapE wDb "bob00001" "farm0001" wNow (by decide) (by decide)


theorem sumByType_fold (l : List FinanceMovement) (a b : ℚ) :
    l.foldl (fun (acc : ℚ × ℚ) m =>
      if m.type == "Ingreso" then (acc.1 + m.amount, acc.2)
      else if m.type == "Gasto" then (acc.1, acc.2 + m.amount)
      else acc) (a, b) =
    (a + ((l.filter (fun m => m.type == "Ingreso")).map (fun m => m.amount)).sum,
      b + ((l.filter (fun m => m.type == "Gasto")).map (fun m => m.amount)).sum) := by
  induction l generalizing a b with
  | nil => simp
  | cons m rest ih =>
    simp only [List.foldl_cons, List.filter_cons]
    by_cases hI : (m.type == "Ingreso") = true
    · have hG : (m.type == "Gasto") = false := by
        rw [beq_iff_eq] at hI
        simp [hI]
      simp only [hI, hG, eq_self_iff_true, if_true, Bool.false_eq_true, if_false,
        List.map_cons, List.sum_cons]
      rw [ih]
      simp [add_assoc]
    · rw [Bool.not_eq_true] at hI
      by_cases hG : (m.type == "Gasto") = true
      · simp only [hI, hG, eq_self_iff_true, if_true, Bool.false_eq_true, if_false,
          List.map_cons, List.sum_cons]
        rw [ih]
        simp [add_assoc]
      · rw [Bool.not_eq_true] at hG
        simp only [hI, hG, Bool.false_eq_true, if_false]
        rw [ih]

theorem sumByType_spec (l : List FinanceMovement) :
    sumByType l =
      { ingresos := ((l.filter (fun m => m.type == "Ingreso")).map
          (fun m => m.amount)).sum,
        gastos := ((l.filter (fun m => m.type == "Gasto")).map
          (fun m => m.amount)).sum,
        balance := ((l.filter (fun m => m.type == "Ingreso")).map
            (fun m => m.amount)).sum -
          ((l.filter (fun m => m.type == "Gasto")).map (fun m => m.amount)).sum,
        margen :=
          if 0 < ((l.filter (fun m => m.type == "Ingreso")).map
              (fun m => m.amount)).sum then
            ((((l.filter (fun m => m.type == "Ingreso")).map
                (fun m => m.amount)).sum -
              ((l.filter (fun m => m.type == "Gasto")).map
                (fun m => m.amount)).sum) /
              ((l.filter (fun m => m.type == "Ingreso")).map
                (fun m => m.amount)).sum) * 100
          else 0 } := by
  unfold sumByType
  rw [sumByType_fold]
  simp

theorem summaryOf_spec (l : List FinanceMovement) (now : DateTime) :
    summaryOf l now =
      { month := monthKeyUTC now,
        ingresos := (((monthMovsOf l now).filter (fun m => m.type == "Ingreso")).map
          (fun m => m.amount)).sum,
        gastos := (((monthMovsOf l now).filter (fun m => m.type == "Gasto")).map
          (fun m => m.amount)).sum,
        balance := (((monthMovsOf l now).filter (fun m => m.type == "Ingreso")).map
            (fun m => m.amount)).sum -
          (((monthMovsOf l now).filter (fun m => m.type == "Gasto")).map
            (fun m => m.amount)).sum,
        margen :=
          if 0 < (((monthMovsOf l now).filter (fun m => m.type == "Ingreso")).map
              (fun m => m.amount)).sum then
            (((((monthMovsOf l now).filter (fun m => m.type == "Ingreso")).map
                (fun m => m.amount)).sum -
              (((monthMovsOf l now).filter (fun m => m.type == "Gasto")).map
                (fun m => m.amount)).sum) /
              (((monthMovsOf l now).filter (fun m => m.type == "Ingreso")).map
                (fun m => m.amount)).sum) * 100
          else 0,
        variationVsPrev := variationOf l now } := by
  unfold summaryOf
  rw [sumByType_spec]

set_option maxRecDepth 16384 in
/-- C6: in the 200 response of GET /farms/:id/finance/insights,
summary.ingresos is the sum of the amounts of the farm's current-UTC-month
movements of type "Ingreso", summary.gastos the corresponding "Gasto" sum,
summary.balance is ingresos minus gastos, and summary.margen is
100 * balance / ingresos when ingresos > 0 and 0 otherwise. -/
theorem insights_summary (db : DB) (userId farmId : String) (now : DateTime)
    (farm : FarmSel) (hId : looksLikeId farmId = true)
    (hOwn : assertFarmOwner db farmId userId = some farm) :
    ∃ ins, (getInsights db userId farmId now).resp = .insightsData ins ∧
      ins.summary.ingresos =
        (((monthMovsOf (db.movements.filter (fun m => m.farmId == farmId)) now).filter
          (fun m => m.type == "Ingreso")).map (fun m => m.amount)).sum ∧
      ins.summary.gastos =
        (((monthMovsOf (db.movements.filter (fun m => m.farmId == farmId)) now).filter
          (fun m => m.type == "Gasto")).map (fun m => m.amount)).sum ∧
      ins.summary.balance = ins.summary.ingresos - ins.summary.gastos ∧
      (0 < ins.summary.ingresos →
        ins.summary.margen = 100 * ins.summary.balance / ins.summary.ingresos) ∧
      (¬0 < ins.summary.ingresos → ins.summary.margen = 0) := by
  have hperm : (movementsOf db farmId).Perm
      (db.movements.filter (fun m => m.farmId == farmId)) :=
    List.mergeSort_perm _ _
  have hsums : ∀ p : FinanceMovement → Bool,
      (((monthMovsOf (movementsOf db farmId) now).filter p).map
        (fun m => m.amount)).sum =
      (((monthMovsOf (db.movements.filter (fun m => m.farmId == farmId)) now).filter
        p).map (fun m => m.amount)).sum :=
    fun p => (((hperm.filter _).filter p).map (fun m => m.amount)).sum_eq
  refine ⟨computeInsights (movementsOf db farmId) (zonesOf db farmId)
    (tasksOf db farmId) now, ?_, ?_, ?_, ?_, ?_, ?_⟩
  · unfold getInsights
    rw [hOwn]
    simp [hId]
  · show (summaryOf (movementsOf db farmId) now).ingresos = _
    rw [summaryOf_spec]
    exact hsums _
  · show (summaryOf (movementsOf db farmId) now).gastos = _
    rw [summaryOf_spec]
    exact hsums _
  · show (summaryOf (movementsOf db farmId) now).balance =
      (summaryOf (movementsOf db farmId) now).ingresos -
        (summaryOf (movementsOf db farmId) now).gastos
    rw [summaryOf_spec]
  · show 0 < (summaryOf (movementsOf db farmId) now).ingresos →
      (summaryOf (movementsOf db farmId) now).margen =
        100 * (summaryOf (movementsOf db farmId) now).balance /
          (summaryOf (movementsOf db farmId) now).ingresos
    rw [summaryOf_spec]
    intro h
    simp only [if_pos h]
    ring
  · show ¬0 < (summaryOf (movementsOf db farmId) now).ingresos →
      (summaryOf (movementsOf db farmId) now).margen = 0
    rw [summaryOf_spec]
    intro h
    simp only [if_neg h]


/-- Witness for C6: the summary characterization instantiated on `wDb`
for alice on farm0001. -/
theorem insights_summary_witness :
    ∃ ins, (getInsights wDb "alice001" "farm0001" wNow).resp = .insightsData ins ∧
      ins.summary.ingresos =
        (((monthMovsOf (wDb.movements.filter (fun m => m.farmId == "farm0001"))
            wNow).filter
          (fun m => m.type == "Ingreso")).map (fun m => m.amount)).sum ∧
      ins.summary.gastos =
        (((monthMovsOf (wDb.movements.filter (fun m => m.farmId == "farm0001"))
            wNow).filter
          (fun m => m.type == "Gasto")).map (fun m => m.amount)).sum ∧
      ins.summary.balance = ins.summary.ingresos - ins.summary.gastos ∧
      (0 < ins.summary.ingresos →
        ins.summary.margen = 100 * ins.summary.balance / ins.summary.ingresos) ∧
      (¬0 < ins.summary.ingresos → ins.summary.margen = 0) :=
  insights_summary wDb "alice001" "farm0001" wNow wFarmSel (by decide) (by rfl)


theorem healthScoreOf_eq_claim (l : List FinanceMovement) (now : DateTime) :
    healthScoreOf l now = healthScoreClaim l now := by
  have hm : ∀ x y : ℚ, ((x - y) / x) * 100 = 100 * (x - y) / x := fun x y => by
    ring
  simp only [healthScoreOf, healthScoreClaim, variationOf, sumByType_spec, auditOf,
    hm]

set_option maxRecDepth 16384 in
/-- C5: the healthScore of the insights response is the 50-based fixed
rule list of the claim, clamped to [0, 100] (each adjustment is an
integer, so the round is the identity), and in particular lies within
[0, 100]. -/
theorem insights_health_score (db : DB) (userId farmId : String) (now : DateTime)
    (farm : FarmSel) (hId : looksLikeId farmId = true)
    (hOwn : assertFarmOwner db farmId userId = some farm) :
    ∃ ins, (getInsights db userId farmId now).resp = .insightsData ins ∧
      ins.healthScore = healthScoreClaim (movementsOf db farmId) now ∧
      0 ≤ ins.healthScore ∧ ins.healthScore ≤ 100 := by
  refine ⟨computeInsights (movementsOf db farmId) (zonesOf db farmId)
    (tasksOf db farmId) now, ?_, ?_, ?_, ?_⟩
  · unfold getInsights
    rw [hOwn]
    simp [hId]
  · exact healthScoreOf_eq_claim _ _
  · show 0 ≤ healthScoreOf (movementsOf db farmId) now
    simp only [healthScoreOf]
    exact le_max_left _ _
  · show healthScoreOf (movementsOf db farmId) now ≤ 100
    simp only [healthScoreOf]
    exact max_le (by norm_num) (min_le_left _ _)

/-- Witness for C5: the health-score characterization instantiated on
`wDb` for alice on farm0001. -/
theorem insights_health_score_witness :
    ∃ ins, (getInsights wDb "alice001" "farm0001" wNow).resp = .insightsData ins ∧
      ins.healthScore = healthScoreClaim (movementsOf wDb "farm0001") wNow ∧
      0 ≤ ins.healthScore ∧ ins.healthScore ≤ 100 :=
  insights_health_score wDb "alice001" "farm0001" wNow wFarmSel (by decide) (by rfl)


/-- C7: GET tasks/suggestions and GET finance/insights write nothing (the
store after the request is the store before it), and their status and
response are a function only of the farm's stored rows, the ownership
lookup and the current date: two stores agreeing on those produce the
same answer. -/
theorem insights_suggestions_read_only (db db2 : DB) (userId userId2 farmId : String)
    (now : DateTime) :
    (getTaskSuggestions db userId farmId now).db = db ∧
    (getInsights db userId farmId now).db = db ∧
    (assertFarmOwner db farmId userId = assertFarmOwner db2 farmId userId2 →
      tasksOf db farmId = tasksOf db2 farmId →
      zonesOf db farmId = zonesOf db2 farmId →
      (getTaskSuggestions db userId farmId now).status =
        (getTaskSuggestions db2 userId2 farmId now).status ∧
      (getTaskSuggestions db userId farmId now).resp =
        (getTaskSuggestions db2 userId2 farmId now).resp) ∧
    (assertFarmOwner db farmId userId = assertFarmOwner db2 farmId userId2 →
      movementsOf db farmId = movementsOf db2 farmId →
      tasksOf db farmId = tasksOf db2 farmId →
      zonesOf db farmId = zonesOf db2 farmId →
      (getInsights db userId farmId now).status =
        (getInsights db2 userId2 farmId now).status ∧
      (getInsights db userId farmId now).resp =
        (getInsights db2 userId2 farmId now).resp) := by
  refine ⟨?_, ?_, ?_, ?_⟩
  · unfold getTaskSuggestions
    split
    · rfl
    · split <;> rfl
  · unfold getInsights
    split
    · rfl
    · split <;> rfl
  · intro hOwn hT hZ
    unfold getTaskSuggestions
    by_cases hid : (!looksLikeId farmId) = true
    · rw [if_pos hid, if_pos hid]
      exact ⟨rfl, rfl⟩
    · rw [if_neg hid, if_neg hid, ← hOwn]
      simp only [hT, hZ]
      cases assertFarmOwner db farmId userId with
      | none => exact ⟨rfl, rfl⟩
      | some farm => exact ⟨rfl, rfl⟩
  · intro hOwn hM hT hZ
    unfold getInsights
    by_cases hid : (!looksLikeId farmId) = true
    · rw [if_pos hid, if_pos hid]
      exact ⟨rfl, rfl⟩
    · rw [if_neg hid, if_neg hid, ← hOwn]
      simp only [hM, hT, hZ]
      cases assertFarmOwner db farmId userId with
      | none => exact ⟨rfl, rfl⟩
      | some farm => exact ⟨rfl, rfl⟩

/-- Witness for C7: on `wDb` and on `wDb2` (which differs only in another
farm's movement) the insights request of alice leaves each store unchanged
and answers identically. -/
theorem insights_suggestions_read_only_witness :
    (getTaskSuggestions wDb "alice001" "farm0001" wNow).db = wDb ∧
    (getInsights wDb "alice001" "farm0001" wNow).db = wDb ∧
    (getInsights wDb "alice001" "farm0001" wNow).resp =
      (getInsights wDb2 "alice001" "farm0001" wNow).resp := by
  have h := insights_suggestions_read_only wDb wDb2 "alice001" "alice001"
    "farm0001" wNow
  exact ⟨h.1, h.2.1, (h.2.2.2 (by rfl) (by rfl) (by rfl) (by rfl)).2⟩


theorem string_append_left_cancel {p a b : String} (h : p ++ a = p ++ b) : a = b := by
  have hd := congrArg String.data h
  rw [String.data_append, String.data_append] at hd
  exact String.ext (List.append_cancel_left hd)

theorem pushAll_fresh (l : List (Option Sug)) (st : SugState)
    (hfresh : ∀ k ∈ (l.filterMap id).map mkSugKey, k ∉ st.seen)
    (hnd : ((l.filterMap id).map mkSugKey).Nodup) :
    pushAll st l =
      ⟨st.seen ++ (l.filterMap id).map mkSugKey, st.out ++ l.filterMap id⟩ := by
  induction l generalizing st with
  | nil => simp [pushAll]
  | cons oc rest ih =>
    cases oc with
    | none =>
      rw [show pushAll st (none :: rest) = pushAll st rest from rfl]
      simp only [List.filterMap_cons, id] at hfresh hnd ⊢
      exact ih st hfresh hnd
    | some s =>
      simp only [List.filterMap_cons, id, List.map_cons, List.nodup_cons,
        List.mem_cons, forall_eq_or_imp] at hfresh hnd
      have hpush : pushSuggestion st s = ⟨st.seen ++ [mkSugKey s], st.out ++ [s]⟩ := by
        simp only [pushSuggestion]
        rw [if_neg (by simpa using hfresh.1)]
      rw [show pushAll st (some s :: rest) = pushAll (pushSuggestion st s) rest from
        rfl, hpush, ih _ ?_ hnd.2]
      · simp
      · intro k hk
        rw [List.mem_append, List.mem_singleton]
        rintro (hks | hke)
        · exact hfresh.2 k hk hks
        · rw [List.mem_map] at hk
          obtain ⟨s2, hs2, rfl⟩ := hk
          exact hnd.1 (hke ▸ List.mem_map_of_mem mkSugKey hs2)

theorem dueSoonCand_some_elim {now : DateTime} {t : Task} {s : Sug}
    (h : dueSoonCand now t = some s) :
    (t.title == "") = false ∧ (t.status == "Completada") = false ∧
    0 ≤ jsCeilDiv (t.due.toMillis - (todayUtcNoon now).toMillis) MS_DAY ∧
    jsCeilDiv (t.due.toMillis - (todayUtcNoon now).toMillis) MS_DAY ≤ 2 ∧
    s.code = "DUE_SOON" ∧ s.id = "due_soon_" ++ t.id ∧
    s.level = (if jsCeilDiv (t.due.toMillis - (todayUtcNoon now).toMillis) MS_DAY == 0
      then "alert" else "warning") := by
  simp only [dueSoonCand] at h
  split at h
  · cases h
  · split at h
    · cases h
    · split at h
      · rename_i h1 h2 hw
        injection h with h
        subst h
        rw [Bool.not_eq_true] at h1 h2
        exact ⟨h1, h2, hw.1, hw.2, rfl, rfl, rfl⟩
      · cases h

theorem dueSoonCand_isSome (now : DateTime) (t : Task)
    (h1 : (t.title == "") = false) (h2 : (t.status == "Completada") = false)
    (hw : 0 ≤ jsCeilDiv (t.due.toMillis - (todayUtcNoon now).toMillis) MS_DAY ∧
      jsCeilDiv (t.due.toMillis - (todayUtcNoon now).toMillis) MS_DAY ≤ 2) :
    ∃ s, dueSoonCand now t = some s := by
  simp only [dueSoonCand, h1, h2, Bool.false_eq_true, if_false]
  rw [if_pos hw]
  exact ⟨_, rfl⟩

theorem overdueCand_some_elim {now : DateTime} {t : Task} {s : Sug}
    (h : overdueCand now t = some s) :
    (t.title == "") = false ∧ (t.status == "Completada") = false ∧
    1 ≤ jsFloorDiv ((todayUtcNoon now).toMillis - t.due.toMillis) MS_DAY ∧
    s.code = "OVERDUE" ∧ s.id = "overdue_" ++ t.id ∧ s.level = "alert" := by
  simp only [overdueCand] at h
  split at h
  · cases h
  · split at h
    · cases h
    · split at h
      · rename_i h1 h2 hw
        injection h with h
        subst h
        rw [Bool.not_eq_true] at h1 h2
        exact ⟨h1, h2, hw, rfl, rfl, rfl⟩
      · cases h

theorem overdueCand_isSome (now : DateTime) (t : Task)
    (h1 : (t.title == "") = false) (h2 : (t.status == "Completada") = false)
    (hw : 1 ≤ jsFloorDiv ((todayUtcNoon now).toMillis - t.due.toMillis) MS_DAY) :
    ∃ s, overdueCand now t = some s := by
  simp only [overdueCand, h1, h2, Bool.false_eq_true, if_false]
  rw [if_pos hw]
  exact ⟨_, rfl⟩


theorem zoneCandidates_code {tasks : List Task} {now : DateTime}
    {zones : List MapZone} {oc : Option Sug}
    (hmem : oc ∈ zoneCandidates tasks now zones) {s : Sug} (h : oc = some s) :
    s.code ≠ "DUE_SOON" ∧ s.code ≠ "OVERDUE" := by
  subst h
  simp only [zoneCandidates] at hmem
  obtain ⟨inner, hinner, hoc⟩ := List.mem_flatten.mp hmem
  rw [List.mem_map] at hinner
  obtain ⟨z, hz, rfl⟩ := hinner
  split at hoc
  · exact absurd hoc (List.not_mem_nil _)
  · rcases List.mem_append.mp hoc with hab | hc
    · rcases List.mem_append.mp hab with ha | hb
      · rw [List.mem_map] at ha
        obtain ⟨crop, hcrop, ha⟩ := ha
        split at ha
        · injection ha with ha
          subst ha
          exact ⟨by simp, by simp⟩
        · cases ha
      · rw [List.mem_map] at hb
        obtain ⟨animal, hanimal, hb⟩ := hb
        split at hb
        · injection hb with hb
          subst hb
          exact ⟨by simp, by simp⟩
        · cases hb
    · split at hc
      · rw [List.mem_singleton] at hc
        split at hc
        · injection hc with hc
          subst hc
          exact ⟨by simp, by simp⟩
        · cases hc
      · exact absurd hc (List.not_mem_nil _)

theorem zoneEmptyCand_code {tasks : List Task} {now : DateTime} {zn : String}
    {s : Sug} (h : zoneEmptyCand tasks now zn = some s) :
    s.code ≠ "DUE_SOON" ∧ s.code ≠ "OVERDUE" := by
  simp only [zoneEmptyCand] at h
  split at h
  · cases h
  · injection h with h
    subst h
    exact ⟨by simp, by simp⟩

theorem pendingCand_code {tasks : List Task} {s : Sug}
    (h : pendingCand tasks = some s) :
    s.code ≠ "DUE_SOON" ∧ s.code ≠ "OVERDUE" := by
  simp only [pendingCand] at h
  split at h
  · injection h with h
    subst h
    exact ⟨by simp, by simp⟩
  · cases h


set_option maxRecDepth 16384 in
/-- C8 (amended): provided no two suggestion candidates of the farm share
the dedup key code:zone:title:due:message and task ids are distinct, then
for a stored task with a title whose status is not "Completada": the
suggestion list has a DUE_SOON entry for that task (level "alert" exactly
when the ceil day difference is 0) iff ceil((due - todayNoon)/day) lies in
[0, 2], and an OVERDUE entry (level "alert") for it iff
floor((todayNoon - due)/day) >= 1. -/
theorem due_soon_overdue_rules (tasks : List Task) (zones : List MapZone)
    (now : DateTime) (t : Task)
    (hkeys : (((allCandidates tasks zones now).filterMap id).map mkSugKey).Nodup)
    (hids : (tasks.map (fun x => x.id)).Nodup)
    (ht : t ∈ tasks)
    (h1 : (t.title == "") = false)
    (h2 : (t.status == "Completada") = false) :
    ((∃ s ∈ computeSuggestions tasks zones now, s.code = "DUE_SOON" ∧
        s.id = "due_soon_" ++ t.id ∧
        s.level = (if jsCeilDiv (t.due.toMillis - (todayUtcNoon now).toMillis)
            MS_DAY == 0 then "alert" else "warning")) ↔
      (0 ≤ jsCeilDiv (t.due.toMillis - (todayUtcNoon now).toMillis) MS_DAY ∧
        jsCeilDiv (t.due.toMillis - (todayUtcNoon now).toMillis) MS_DAY ≤ 2)) ∧
    ((∃ s ∈ computeSuggestions tasks zones now, s.code = "OVERDUE" ∧
        s.id = "overdue_" ++ t.id ∧ s.level = "alert") ↔
      1 ≤ jsFloorDiv ((todayUtcNoon now).toMillis - t.due.toMillis) MS_DAY) := by
  have hout : computeSuggestions tasks zones now =
      (allCandidates tasks zones now).filterMap id := by
    unfold computeSuggestions
    rw [pushAll_fresh _ _ (by simp) hkeys]
    rfl
  have hsplit : allCandidates tasks zones now = zoneCandidates tasks now zones
      ++ tasks.map (dueSoonCand now)
      ++ (zoneNamesOf zones).map (zoneEmptyCand tasks now)
      ++ [pendingCand tasks] ++ tasks.map (overdueCand now) := rfl
  rw [hout]
  constructor
  · constructor
    · rintro ⟨s, hs, hcode, hid, -⟩
      rw [List.mem_filterMap] at hs
      obtain ⟨oc, hoc, hocs⟩ := hs
      rw [hsplit] at hoc
      have hocs2 : oc = some s := hocs
      rcases List.mem_append.mp hoc with hoc | hoc
      rotate_left
      · rw [List.mem_map] at hoc
        obtain ⟨t2, ht2, rfl⟩ := hoc
        have hcode2 := (overdueCand_some_elim hocs2).2.2.2.1
        exact absurd (hcode2.symm.trans hcode) (by decide)
      rcases List.mem_append.mp hoc with hoc | hoc
      rotate_left
      · rw [List.mem_singleton] at hoc
        subst hoc
        exact absurd hcode (pendingCand_code hocs2).1
      rcases List.mem_append.mp hoc with hoc | hoc
      rotate_left
      · rw [List.mem_map] at hoc
        obtain ⟨zn, hzn, rfl⟩ := hoc
        exact absurd hcode (zoneEmptyCand_code hocs2).1
      rcases List.mem_append.mp hoc with hoc | hoc
      · exact absurd hcode (zoneCandidates_code hoc hocs2).1
      · rw [List.mem_map] at hoc
        obtain ⟨t2, ht2, rfl⟩ := hoc
        obtain ⟨-, -, hw0, hw2, -, hid2, -⟩ := dueSoonCand_some_elim hocs2
        have hideq : t2.id = t.id := string_append_left_cancel (hid2.symm.trans hid)
        have ht2t : t2 = t := List.inj_on_of_nodup_map hids ht2 ht hideq
        subst ht2t
        exact ⟨hw0, hw2⟩
    · rintro ⟨hw0, hw2⟩
      obtain ⟨s, hsome⟩ := dueSoonCand_isSome now t h1 h2 ⟨hw0, hw2⟩
      obtain ⟨-, -, -, -, hcode, hid, hlevel⟩ := dueSoonCand_some_elim hsome
      refine ⟨s, ?_, hcode, hid, hlevel⟩
      rw [List.mem_filterMap]
      refine ⟨dueSoonCand now t, ?_, hsome⟩
      rw [hsplit]
      simp only [List.mem_append]
      exact Or.inl (Or.inl (Or.inl (Or.inr (List.mem_map_of_mem _ ht))))
  · constructor
    · rintro ⟨s, hs, hcode, hid, -⟩
      rw [List.mem_filterMap] at hs
      obtain ⟨oc, hoc, hocs⟩ := hs
      rw [hsplit] at hoc
      have hocs2 : oc = some s := hocs
      rcases List.mem_append.mp hoc with hoc | hoc
      rotate_left
      · rw [List.mem_map] at hoc
        obtain ⟨t2, ht2, rfl⟩ := hoc
        obtain ⟨-, -, hw, -, hid2, -⟩ := overdueCand_some_elim hocs2
        have hideq : t2.id = t.id := string_append_left_cancel (hid2.symm.trans hid)
        have ht2t : t2 = t := List.inj_on_of_nodup_map hids ht2 ht hideq
        subst ht2t
        exact hw
      rcases List.mem_append.mp hoc with hoc | hoc
      rotate_left
      · rw [List.mem_singleton] at hoc
        subst hoc
        exact absurd hcode (pendingCand_code hocs2).2
      rcases List.mem_append.mp hoc with hoc | hoc
      rotate_left
      · rw [List.mem_map] at hoc
        obtain ⟨zn, hzn, rfl⟩ := hoc
        exact absurd hcode (zoneEmptyCand_code hocs2).2
      rcases List.mem_append.mp hoc with hoc | hoc
      · exact absurd hcode (zoneCandidates_code hoc hocs2).2
      · rw [List.mem_map] at hoc
        obtain ⟨t2, ht2, rfl⟩ := hoc
        have hcode2 := (dueSoonCand_some_elim hocs2).2.2.2.2.1
        exact absurd (hcode2.symm.trans hcode) (by decide)
    · intro hw
      obtain ⟨s, hsome⟩ := overdueCand_isSome now t h1 h2 hw
      obtain ⟨-, -, -, hcode, hid, hlevel⟩ := overdueCand_some_elim hsome
      refine ⟨s, ?_, hcode, hid, hlevel⟩
      rw [List.mem_filterMap]
      refine ⟨overdueCand now t, ?_, hsome⟩
      rw [hsplit]
      simp only [List.mem_append]
      exact Or.inr (List.mem_map_of_mem _ ht)


/-- C8 counterexample: `wT2` is a stored task with a title, not completed,
due today (so its ceil day difference is 0, inside [0, 2]), yet the
suggestion list carries no DUE_SOON entry for it: its candidate was
dropped by the dedup key it shares with `wT1`. -/
theorem due_soon_overdue_counterexample :
    wT2 ∈ wDupTasks ∧ (wT2.title == "") = false ∧
    (wT2.status == "Completada") = false ∧
    (0 ≤ jsCeilDiv (wT2.due.toMillis - (todayUtcNoon wNow).toMillis) MS_DAY ∧
      jsCeilDiv (wT2.due.toMillis - (todayUtcNoon wNow).toMillis) MS_DAY ≤ 2) ∧
    ¬∃ s ∈ computeSuggestions wDupTasks [] wNow, s.code = "DUE_SOON" ∧
      s.id = "due_soon_" ++ wT2.id := by
  decide

/-- Witness for C8 (amended): on the one-task store `[wTask]` (due
2026-10-10, a day before `wNow`) the suggestion list carries the OVERDUE
alert for the task. -/
theorem due_soon_overdue_rules_witness :
    ∃ s ∈ computeSuggestions [wTask] [] wNow, s.code = "OVERDUE" ∧
      s.id = "overdue_" ++ wTask.id ∧ s.level = "alert" :=
  (due_soon_overdue_rules [wTask] [] wNow wTask (by decide) (by decide)
    (by decide) (by decide) (by decide)).2.mpr (by decide)

end AgroMind
